import Mathlib

/-!
Verification of the Pronunex Assessment & Diagnostic Engine
(`backend/nlp_core`): a shallow embedding of the pure scoring pipeline
(edit distance, word alignment, ASR validation gate, PER scorer, letter
highlighter, mistake synthesizer) with proofs of the spec's claims.

Python floats are modelled as exact rationals (`ℚ`); all inputs exercised
by the concrete scenarios keep float arithmetic exact, so the model and
CPython agree on every concrete evaluation below.  Python `int` is `ℤ`,
Python lists are Lean lists, dict-shaped results are structures.
-/

namespace Pronunex

/-! ## Python numeric helpers

`pyInt` is Python's `int()` applied to a float: truncation toward zero.
`pyRoundInt` is Python's `round(x)`: round half to even (banker's rounding).
`pyRound3` is Python's `round(x, 3)` on values whose scaled fractional part
is exact in our rational model. -/

/-- Python `int(q)`: truncation toward zero. -/
def pyInt (q : ℚ) : ℤ := if 0 ≤ q then ⌊q⌋ else -⌊-q⌋

/-- Python `round(q)`: round half to even. -/
def pyRoundInt (q : ℚ) : ℤ :=
  let f : ℤ := ⌊q⌋
  let r : ℚ := q - f
  if r < 1/2 then f
  else if 1/2 < r then f + 1
  else if f % 2 = 0 then f else f + 1

/-- Python `round(q, 3)`. -/
def pyRound3 (q : ℚ) : ℚ := (pyRoundInt (q * 1000) : ℚ) / 1000

/-- Python `round(q, 1)`. -/
def pyRound1 (q : ℚ) : ℚ := (pyRoundInt (q * 10) : ℚ) / 10

/-! ## `edit_distance.py`: Levenshtein distance

`edit_distance` fills an `(|a|+1) × (|b|+1)` DP matrix.  `edCell a b x y`
is the cell `matrix[x][y]`: first row/column are `x` resp. `y`, and an
inner cell is the minimum of deletion (`matrix[x-1][y] + 1`), match or
substitution (`matrix[x-1][y-1]`, `+ 1` when the characters differ) and
insertion (`matrix[x][y-1] + 1`), exactly as the source writes it (the
match case also takes the min with the deletion/insertion branches).
The recursion is driven by a fuel argument (`x + y` steps always
suffice), which keeps the definition kernel-computable. -/

def edAux (a b : List Char) : ℕ → ℕ → ℕ → ℕ
  | _, 0, y => y
  | _, x+1, 0 => x+1
  | 0, _+1, _+1 => 0
  | f+1, x+1, y+1 =>
      if a.getD x ' ' = b.getD y ' ' then
        min (edAux a b f x (y+1) + 1) (min (edAux a b f x y) (edAux a b f (x+1) y + 1))
      else
        min (edAux a b f x (y+1) + 1) (min (edAux a b f x y + 1) (edAux a b f (x+1) y + 1))

theorem edAux_fuel (a b : List Char) :
    ∀ f g x y, x + y ≤ f → x + y ≤ g → edAux a b f x y = edAux a b g x y := by
  intro f
  induction f with
  | zero =>
    intro g x y hf _
    have hx : x = 0 := by omega
    subst hx
    cases g <;> cases y <;> rfl
  | succ f ih =>
    intro g x y hf hg
    match x, y with
    | 0, y => cases g <;> rfl
    | x+1, 0 => cases g <;> rfl
    | x+1, y+1 =>
      match g with
      | g+1 =>
        show edAux a b (f+1) (x+1) (y+1) = edAux a b (g+1) (x+1) (y+1)
        simp only [edAux]
        rw [ih g x (y+1) (by omega) (by omega), ih g x y (by omega) (by omega),
          ih g (x+1) y (by omega) (by omega)]

/-- `matrix[x][y]` of `edit_distance`'s DP table for sequences `a`, `b`. -/
def edCell (a b : List Char) (x y : ℕ) : ℕ := edAux a b (x + y) x y

theorem edCell_zero_left (a b : List Char) (y : ℕ) : edCell a b 0 y = y := by
  cases y <;> rfl

theorem edCell_zero_right (a b : List Char) (x : ℕ) : edCell a b x 0 = x := by
  cases x <;> rfl

theorem edCell_succ_succ (a b : List Char) (x y : ℕ) :
    edCell a b (x+1) (y+1) =
      if a.getD x ' ' = b.getD y ' ' then
        min (edCell a b x (y+1) + 1) (min (edCell a b x y) (edCell a b (x+1) y + 1))
      else
        min (edCell a b x (y+1) + 1) (min (edCell a b x y + 1) (edCell a b (x+1) y + 1)) := by
  show edAux a b (x+1+(y+1)) (x+1) (y+1) = _
  have h : x+1+(y+1) = (x+y+1)+1 := by omega
  rw [h]
  simp only [edAux, edCell]
  rw [edAux_fuel a b (x+y+1) (x+(y+1)) x (y+1) (by omega) (by omega),
    edAux_fuel a b (x+y+1) (x+y) x y (by omega) (by omega),
    edAux_fuel a b (x+y+1) (x+1+y) (x+1) y (by omega) (by omega)]

/-- `edit_distance(seq1, seq2)`: the bottom-right cell of the DP table. -/
def edit_distance (s t : String) : ℕ := edCell s.data t.data s.data.length t.data.length

theorem edCell_self_diag (a : List Char) : ∀ x, edCell a a x x = 0 := by
  intro x
  induction x with
  | zero => simp [edCell_zero_left]
  | succ x ih =>
    rw [edCell_succ_succ, if_pos rfl, ih]
    omega

theorem edCell_symm (a b : List Char) : ∀ x y, edCell a b x y = edCell b a y x := by
  have key : ∀ n x y, x + y = n → edCell a b x y = edCell b a y x := by
    intro n
    induction n using Nat.strong_induction_on with
    | _ n ih =>
      intro x y hn
      match x, y with
      | 0, y => rw [edCell_zero_left, edCell_zero_right]
      | x+1, 0 => rw [edCell_zero_left, edCell_zero_right]
      | x+1, y+1 =>
        rw [edCell_succ_succ, edCell_succ_succ]
        rw [ih (x + (y+1)) (by omega) x (y+1) rfl,
          ih (x + y) (by omega) x y rfl,
          ih ((x+1) + y) (by omega) (x+1) y rfl]
        by_cases h : a.getD x ' ' = b.getD y ' '
        · rw [if_pos h, if_pos h.symm]
          omega
        · rw [if_neg h, if_neg (fun h2 => h h2.symm)]
          omega
  intro x y
  exact key (x + y) x y rfl

theorem edCell_le_max (a b : List Char) : ∀ x y, edCell a b x y ≤ max x y := by
  have key : ∀ n x y, x + y = n → edCell a b x y ≤ max x y := by
    intro n
    induction n using Nat.strong_induction_on with
    | _ n ih =>
      intro x y hn
      match x, y with
      | 0, y => rw [edCell_zero_left]; omega
      | x+1, 0 => rw [edCell_zero_right]; omega
      | x+1, y+1 =>
        rw [edCell_succ_succ]
        have hd := ih (x + y) (by omega) x y rfl
        by_cases h : a.getD x ' ' = b.getD y ' '
        · rw [if_pos h]
          omega
        · rw [if_neg h]
          omega
  intro x y
  exact key (x + y) x y rfl

/-- `edit_distance_normalized(seq1, seq2)`: `0.0` when both sequences are
empty, else `distance / max(len(seq1), len(seq2))`. -/
def edit_distance_normalized (s t : String) : ℚ :=
  if s.data.length = 0 ∧ t.data.length = 0 then 0
  else (edit_distance s t : ℚ) / (max s.data.length t.data.length : ℕ)

/-- `edit_distance_similarity(seq1, seq2) = 1.0 - edit_distance_normalized(...)`. -/
def edit_distance_similarity (s t : String) : ℚ := 1 - edit_distance_normalized s t

theorem edit_distance_le_max_length (s t : String) :
    edit_distance s t ≤ max s.data.length t.data.length :=
  edCell_le_max s.data t.data s.data.length t.data.length

theorem edit_distance_normalized_nonneg (s t : String) :
    0 ≤ edit_distance_normalized s t := by
  unfold edit_distance_normalized
  split
  · exact le_refl 0
  · positivity

theorem edit_distance_normalized_le_one (s t : String) :
    edit_distance_normalized s t ≤ 1 := by
  unfold edit_distance_normalized
  split
  · norm_num
  · rename_i h
    have hmax : 0 < max s.data.length t.data.length := by omega
    rw [div_le_one (by exact_mod_cast hmax)]
    exact_mod_cast edit_distance_le_max_length s t

/-! ## `edit_distance.py`: `get_edit_operations`

`get_edit_operations` builds its own DP matrix (identical to
`edit_distance`'s except that the match case copies the diagonal cell
directly) and then backtracks from the bottom-right corner, preferring
match, then substitute, then delete, then insert. -/

def opsAux (a b : List Char) : ℕ → ℕ → ℕ → ℕ
  | _, 0, y => y
  | _, x+1, 0 => x+1
  | 0, _+1, _+1 => 0
  | f+1, x+1, y+1 =>
      if a.getD x ' ' = b.getD y ' ' then
        opsAux a b f x y
      else
        min (opsAux a b f x (y+1) + 1) (min (opsAux a b f x y + 1) (opsAux a b f (x+1) y + 1))

theorem opsAux_fuel (a b : List Char) :
    ∀ f g x y, x + y ≤ f → x + y ≤ g → opsAux a b f x y = opsAux a b g x y := by
  intro f
  induction f with
  | zero =>
    intro g x y hf _
    have hx : x = 0 := by omega
    subst hx
    cases g <;> cases y <;> rfl
  | succ f ih =>
    intro g x y hf hg
    match x, y with
    | 0, y => cases g <;> rfl
    | x+1, 0 => cases g <;> rfl
    | x+1, y+1 =>
      match g with
      | g+1 =>
        show opsAux a b (f+1) (x+1) (y+1) = opsAux a b (g+1) (x+1) (y+1)
        simp only [opsAux]
        rw [ih g x (y+1) (by omega) (by omega), ih g x y (by omega) (by omega),
          ih g (x+1) y (by omega) (by omega)]

/-- `matrix[x][y]` of `get_edit_operations`'s DP table. -/
def opsCell (a b : List Char) (x y : ℕ) : ℕ := opsAux a b (x + y) x y

theorem opsCell_zero_left (a b : List Char) (y : ℕ) : opsCell a b 0 y = y := by
  cases y <;> rfl

theorem opsCell_zero_right (a b : List Char) (x : ℕ) : opsCell a b x 0 = x := by
  cases x <;> rfl

theorem opsCell_succ_succ (a b : List Char) (x y : ℕ) :
    opsCell a b (x+1) (y+1) =
      if a.getD x ' ' = b.getD y ' ' then
        opsCell a b x y
      else
        min (opsCell a b x (y+1) + 1) (min (opsCell a b x y + 1) (opsCell a b (x+1) y + 1)) := by
  show opsAux a b (x+1+(y+1)) (x+1) (y+1) = _
  have h : x+1+(y+1) = (x+y+1)+1 := by omega
  rw [h]
  simp only [opsAux, opsCell]
  rw [opsAux_fuel a b (x+y+1) (x+(y+1)) x (y+1) (by omega) (by omega),
    opsAux_fuel a b (x+y+1) (x+y) x y (by omega) (by omega),
    opsAux_fuel a b (x+y+1) (x+1+y) (x+1) y (by omega) (by omega)]

theorem opsCell_lower_bound (a b : List Char) :
    ∀ x y, x ≤ opsCell a b x y + y ∧ y ≤ opsCell a b x y + x := by
  have key : ∀ n x y, x + y = n → x ≤ opsCell a b x y + y ∧ y ≤ opsCell a b x y + x := by
    intro n
    induction n using Nat.strong_induction_on with
    | _ n ih =>
      intro x y hn
      match x, y with
      | 0, y => rw [opsCell_zero_left]; omega
      | x+1, 0 => rw [opsCell_zero_right]; omega
      | x+1, y+1 =>
        rw [opsCell_succ_succ]
        have h1 := ih (x + y) (by omega) x y rfl
        by_cases h : a.getD x ' ' = b.getD y ' '
        · rw [if_pos h]; omega
        · rw [if_neg h]
          have h2 := ih (x + (y+1)) (by omega) x (y+1) rfl
          have h3 := ih ((x+1) + y) (by omega) (x+1) y rfl
          omega
  intro x y
  exact key (x + y) x y rfl

theorem opsCell_lipschitz (a b : List Char) :
    ∀ x y, opsCell a b x y ≤ opsCell a b x (y+1) + 1 ∧
      opsCell a b x y ≤ opsCell a b (x+1) y + 1 := by
  have key : ∀ n x y, x + y = n → opsCell a b x y ≤ opsCell a b x (y+1) + 1 ∧
      opsCell a b x y ≤ opsCell a b (x+1) y + 1 := by
    intro n
    induction n using Nat.strong_induction_on with
    | _ n ih =>
      intro x y hn
      match x, y with
      | 0, y =>
        constructor
        · rw [opsCell_zero_left, opsCell_zero_left]; omega
        · simp only [Nat.zero_add]
          rw [opsCell_zero_left]
          have := (opsCell_lower_bound a b 1 y).2
          omega
      | x+1, 0 =>
        constructor
        · simp only [Nat.zero_add]
          rw [opsCell_zero_right]
          have := (opsCell_lower_bound a b (x+1) 1).1
          omega
        · rw [opsCell_zero_right, opsCell_zero_right]; omega
      | x+1, y+1 =>
        have hstepL : opsCell a b (x+1) (y+1) ≤ opsCell a b x (y+1) + 1 := by
          rw [opsCell_succ_succ]
          by_cases h : a.getD x ' ' = b.getD y ' '
          · rw [if_pos h]; exact (ih (x + y) (by omega) x y rfl).1
          · rw [if_neg h]; omega
        have hstepU : opsCell a b (x+1) (y+1) ≤ opsCell a b (x+1) y + 1 := by
          rw [opsCell_succ_succ]
          by_cases h : a.getD x ' ' = b.getD y ' '
          · rw [if_pos h]; exact (ih (x + y) (by omega) x y rfl).2
          · rw [if_neg h]; omega
        constructor
        · by_cases h2 : a.getD x ' ' = b.getD (y+1) ' '
          · rw [opsCell_succ_succ a b x (y+1), if_pos h2]
            exact hstepL
          · rw [opsCell_succ_succ a b x (y+1), if_neg h2]
            have h3 := (ih (x + (y+1)) (by omega) x (y+1) rfl).1
            omega
        · by_cases h2 : a.getD (x+1) ' ' = b.getD y ' '
          · rw [opsCell_succ_succ a b (x+1) y, if_pos h2]
            exact hstepU
          · rw [opsCell_succ_succ a b (x+1) y, if_neg h2]
            have h3 := (ih ((x+1) + y) (by omega) (x+1) y rfl).2
            omega
  intro x y
  exact key (x + y) x y rfl

/-- The two DP tables agree: in the match case `edit_distance`'s extra
min over deletion/insertion never beats the diagonal. -/
theorem edCell_eq_opsCell (a b : List Char) : ∀ x y, edCell a b x y = opsCell a b x y := by
  have key : ∀ n x y, x + y = n → edCell a b x y = opsCell a b x y := by
    intro n
    induction n using Nat.strong_induction_on with
    | _ n ih =>
      intro x y hn
      match x, y with
      | 0, y => rw [edCell_zero_left, opsCell_zero_left]
      | x+1, 0 => rw [edCell_zero_right, opsCell_zero_right]
      | x+1, y+1 =>
        rw [edCell_succ_succ, opsCell_succ_succ]
        rw [ih (x + (y+1)) (by omega) x (y+1) rfl, ih (x + y) (by omega) x y rfl,
          ih ((x+1) + y) (by omega) (x+1) y rfl]
        by_cases h : a.getD x ' ' = b.getD y ' '
        · rw [if_pos h, if_pos h]
          have h1 := (opsCell_lipschitz a b x y).1
          have h2 := (opsCell_lipschitz a b x y).2
          omega
        · rw [if_neg h, if_neg h]
  intro x y
  exact key (x + y) x y rfl

/-- One entry of the operation list `get_edit_operations` returns:
`{'type', 'position', 'char1', 'char2'}`. -/
structure EditOp where
  type : String
  position : ℕ
  char1 : Option Char
  char2 : Option Char
deriving DecidableEq, Repr

/-- The backtrack loop of `get_edit_operations` (state `(x, y)` walks to
`(0, 0)`; operations are emitted in reverse and the list reversed at the
end, so this recursion produces them directly in forward order). -/
def backAux (a b : List Char) : ℕ → ℕ → ℕ → List EditOp
  | _, 0, 0 => []
  | f+1, x+1, 0 =>
      backAux a b f x 0 ++ [⟨"delete", x, some (a.getD x ' '), none⟩]
  | f+1, 0, y+1 =>
      backAux a b f 0 y ++ [⟨"insert", 0, none, some (b.getD y ' ')⟩]
  | f+1, x+1, y+1 =>
      if a.getD x ' ' = b.getD y ' ' then
        backAux a b f x y ++ [⟨"match", x, some (a.getD x ' '), some (b.getD y ' ')⟩]
      else if opsCell a b (x+1) (y+1) = opsCell a b x y + 1 then
        backAux a b f x y ++ [⟨"substitute", x, some (a.getD x ' '), some (b.getD y ' ')⟩]
      else if opsCell a b (x+1) (y+1) = opsCell a b x (y+1) + 1 then
        backAux a b f x (y+1) ++ [⟨"delete", x, some (a.getD x ' '), none⟩]
      else
        backAux a b f (x+1) y ++ [⟨"insert", x+1, none, some (b.getD y ' ')⟩]
  | 0, _, _ => []

/-- `get_edit_operations(seq1, seq2)`: backtrack from the bottom-right cell. -/
def get_edit_operations (s t : String) : List EditOp :=
  backAux s.data t.data (s.data.length + t.data.length) s.data.length t.data.length

/-- The non-match operations (substitute, delete, insert) of an operation list. -/
def nonMatchOps (ops : List EditOp) : ℕ :=
  ops.countP (fun o => o.type == "substitute" || o.type == "delete" || o.type == "insert")

theorem nonMatchOps_backAux (a b : List Char) :
    ∀ f x y, x + y ≤ f → nonMatchOps (backAux a b f x y) = opsCell a b x y := by
  intro f
  induction f with
  | zero =>
    intro x y hf
    have hx : x = 0 := by omega
    have hy : y = 0 := by omega
    subst hx; subst hy
    simp [backAux, nonMatchOps, opsCell_zero_left]
  | succ f ih =>
    intro x y hf
    match x, y with
    | 0, 0 => simp [backAux, nonMatchOps, opsCell_zero_left]
    | x+1, 0 =>
      have := ih x 0 (by omega)
      simp only [backAux, nonMatchOps, List.countP_append] at *
      rw [this]
      simp [opsCell_zero_right, List.countP_cons]
    | 0, y+1 =>
      have := ih 0 y (by omega)
      simp only [backAux, nonMatchOps, List.countP_append] at *
      rw [this]
      simp [opsCell_zero_left, List.countP_cons]
    | x+1, y+1 =>
      simp only [backAux]
      by_cases h1 : a.getD x ' ' = b.getD y ' '
      · rw [if_pos h1]
        have hdp : opsCell a b (x+1) (y+1) = opsCell a b x y := by
          rw [opsCell_succ_succ, if_pos h1]
        have := ih x y (by omega)
        simp only [nonMatchOps, List.countP_append] at *
        rw [this, hdp]
        simp [List.countP_cons]
      · rw [if_neg h1]
        by_cases h2 : opsCell a b (x+1) (y+1) = opsCell a b x y + 1
        · rw [if_pos h2]
          have := ih x y (by omega)
          simp only [nonMatchOps, List.countP_append] at *
          rw [this, h2]
          simp [List.countP_cons]
        · rw [if_neg h2]
          by_cases h3 : opsCell a b (x+1) (y+1) = opsCell a b x (y+1) + 1
          · rw [if_pos h3]
            have := ih x (y+1) (by omega)
            simp only [nonMatchOps, List.countP_append] at *
            rw [this, h3]
            simp [List.countP_cons]
          · rw [if_neg h3]
            have hdp : opsCell a b (x+1) (y+1) = opsCell a b (x+1) y + 1 := by
              have hmin : opsCell a b (x+1) (y+1) =
                  min (opsCell a b x (y+1) + 1)
                    (min (opsCell a b x y + 1) (opsCell a b (x+1) y + 1)) := by
                rw [opsCell_succ_succ, if_neg h1]
              omega
            have := ih (x+1) y (by omega)
            simp only [nonMatchOps, List.countP_append] at *
            rw [this, hdp]
            simp [List.countP_cons]

/-! ## `difflib.SequenceMatcher` (Python standard library)

`asr_validator.py` uses `difflib.SequenceMatcher(None, a, b)` for the word
diff (`get_opcodes`) and the whole-string ratio.  All inputs here are far
below the 200-element autojunk cutoff and `isjunk` is `None`, so no element
is junk.  `find_longest_match(alo, ahi, blo, bhi)` is modelled by its
documented junk-free contract, which the implementation satisfies: among
all `(i, j, k)` with `a[i:i+k] = b[j:j+k]` inside the window it returns
the one with maximal `k`, then minimal `i`, then minimal `j`.
`get_matching_blocks` recurses left and right of that match (fuel-driven;
window sizes strictly decrease, and this recursion emits the blocks
already sorted), merges adjacent blocks and appends a `(la, lb, 0)`
sentinel; `get_opcodes` and `ratio` derive from the blocks exactly as in
difflib. -/

section SequenceMatcher

variable {α : Type} [DecidableEq α]

/-- Length of the common run of `a`/`b` starting at `i`/`j`, staying inside
the windows that end at `ahi`/`bhi` (fuel `ahi - i` always suffices). -/
def runLenAux (a b : List α) (ahi bhi : ℕ) : ℕ → ℕ → ℕ → ℕ
  | 0, _, _ => 0
  | f+1, i, j =>
      if i < ahi ∧ j < bhi ∧ a.get? i = b.get? j then
        runLenAux a b ahi bhi f (i+1) (j+1) + 1
      else 0

def runLen (a b : List α) (ahi bhi i j : ℕ) : ℕ := runLenAux a b ahi bhi (ahi - i) i j

/-- `SequenceMatcher.find_longest_match` on the window
`a[alo:ahi]`, `b[blo:bhi]`, as a triple `(i, j, size)`. -/
def find_longest_match (a b : List α) (alo ahi blo bhi : ℕ) : ℕ × ℕ × ℕ :=
  let cands := (List.range' alo (ahi - alo)).flatMap (fun i =>
    (List.range' blo (bhi - blo)).map (fun j => (i, j, runLen a b ahi bhi i j)))
  cands.foldl (fun best c => if best.2.2 < c.2.2 then c else best) (alo, blo, 0)

/-- The recursive splitting of `get_matching_blocks` (difflib's LIFO queue
visits the same windows; sorting its output yields this in-order list). -/
def matchingBlocksAux (a b : List α) : ℕ → ℕ → ℕ → ℕ → ℕ → List (ℕ × ℕ × ℕ)
  | 0, _, _, _, _ => []
  | f+1, alo, ahi, blo, bhi =>
      let t := find_longest_match a b alo ahi blo bhi
      if t.2.2 = 0 then []
      else
        matchingBlocksAux a b f alo t.1 blo t.2.1 ++
          t :: matchingBlocksAux a b f (t.1 + t.2.2) ahi (t.2.1 + t.2.2) bhi

/-- difflib's merge of adjacent blocks (state: emitted blocks, current block). -/
def mergeBlockStep (st : List (ℕ × ℕ × ℕ) × (ℕ × ℕ × ℕ)) (blk : ℕ × ℕ × ℕ) :
    List (ℕ × ℕ × ℕ) × (ℕ × ℕ × ℕ) :=
  let (acc, c) := st
  if c.1 + c.2.2 = blk.1 ∧ c.2.1 + c.2.2 = blk.2.1 then
    (acc, (c.1, c.2.1, c.2.2 + blk.2.2))
  else if c.2.2 ≠ 0 then (acc ++ [c], blk)
  else (acc, blk)

/-- `SequenceMatcher.get_matching_blocks`. -/
def get_matching_blocks (a b : List α) : List (ℕ × ℕ × ℕ) :=
  let raw := matchingBlocksAux a b (a.length + b.length + 1) 0 a.length 0 b.length
  let st := raw.foldl mergeBlockStep ([], (0, 0, 0))
  (if st.2.2.2 ≠ 0 then st.1 ++ [st.2] else st.1) ++ [(a.length, b.length, 0)]

/-- One opcode of `SequenceMatcher.get_opcodes`. -/
structure Opcode where
  tag : String
  i1 : ℕ
  i2 : ℕ
  j1 : ℕ
  j2 : ℕ
deriving DecidableEq, Repr

/-- `SequenceMatcher.get_opcodes`. -/
def get_opcodes (a b : List α) : List Opcode :=
  ((get_matching_blocks a b).foldl (fun (st : ℕ × ℕ × List Opcode) blk =>
    let i := st.1
    let j := st.2.1
    let acc := st.2.2
    let ai := blk.1
    let bj := blk.2.1
    let size := blk.2.2
    let tag : String :=
      if i < ai ∧ j < bj then "replace"
      else if i < ai then "delete"
      else if j < bj then "insert"
      else ""
    let acc := if tag ≠ "" then acc ++ [⟨tag, i, ai, j, bj⟩] else acc
    let acc := if size ≠ 0 then acc ++ [⟨"equal", ai, ai + size, bj, bj + size⟩] else acc
    (ai + size, bj + size, acc)) (0, 0, [])).2.2

/-- `SequenceMatcher.ratio() = 2 * matches / (len(a) + len(b))`
(`1.0` when both are empty). -/
def sm_ratio (a b : List α) : ℚ :=
  let nMatched := ((get_matching_blocks a b).map (fun t => t.2.2)).sum
  if a.length + b.length = 0 then 1
  else 2 * (nMatched : ℚ) / ((a.length + b.length : ℕ) : ℚ)

end SequenceMatcher

/-! ## Python string primitives

Core `String` functions (`toLower`, `trim`, `split`, …) are defined by
well-founded recursion on byte positions and do not reduce inside the
kernel, so the Python string operations are modelled structurally over
`String.data` (the list of code points — which is also what Python
strings are).  `lower()`/`strip()` are ASCII-faithful, which covers every
string they are applied to in this development. -/

/-- Python `str.lower()` (ASCII). -/
def pyLower (s : String) : String := ⟨s.data.map Char.toLower⟩

/-- Python `str.strip()`: drop leading and trailing whitespace. -/
def pyStrip (s : String) : String :=
  ⟨((s.data.dropWhile Char.isWhitespace).reverse.dropWhile Char.isWhitespace).reverse⟩

/-- Python `s.startswith(p)`. -/
def pyStartsWith (s p : String) : Bool := p.data.isPrefixOf s.data

/-- Python `s.endswith(p)`. -/
def pyEndsWith (s p : String) : Bool := p.data.isSuffixOf s.data

/-- Python `s[n:]`. -/
def strDrop (s : String) (n : ℕ) : String := ⟨s.data.drop n⟩

/-- Python `s[:n]`. -/
def strTake (s : String) (n : ℕ) : String := ⟨s.data.take n⟩

/-- Helper of `pySplit`: the current (reversed) word is carried along. -/
def splitWsAux : List Char → List Char → List String
  | [], cur => if cur = [] then [] else [⟨cur.reverse⟩]
  | c :: rest, cur =>
      if c.isWhitespace then
        if cur = [] then splitWsAux rest []
        else ⟨cur.reverse⟩ :: splitWsAux rest []
      else splitWsAux rest (c :: cur)

/-- Python `str.split()`: split on whitespace runs, dropping empty pieces. -/
def pySplit (s : String) : List String := splitWsAux s.data []

/-! ## `asr_validator.py`: hallucination filter and word diff -/

/-- Substring test (Python `pat in s`). -/
def strContains (s pat : String) : Bool :=
  (List.range (s.length + 1)).any (fun i => pat.data.isPrefixOf (s.data.drop i))

/-- Does a run of `n` further copies of `c` follow? -/
def runReaches (c : Char) : ℕ → List Char → Bool
  | 0, _ => true
  | _+1, [] => false
  | n+1, d :: rest => if d = c then runReaches c n rest else false

/-- The regex `(.)\1{5,}`: some character other than a newline (`.` does not
match `\n`) occurs at least 6 times consecutively. -/
def hasCharRun6 : List Char → Bool
  | [] => false
  | c :: rest => if c ≠ '\n' ∧ runReaches c 5 rest then true else hasCharRun6 rest

/-- `_is_hallucination(text)`: the four heuristics of the source, applied in
order after the `len(text) < 3` guard. -/
def _is_hallucination (text : String) : Bool :=
  if text = "" ∨ text.length < 3 then false
  else if ((text.data.countP (fun ch => 127 < ch.toNat) : ℕ) : ℚ) / (text.length : ℚ) > 3/10 then
    true
  else if hasCharRun6 text.data then true
  else
    let words := pySplit text
    if words.length > 3 ∧
        ((words.foldl (fun m w => max m (words.count w)) 0 : ℕ) : ℚ) / (words.length : ℚ) > 1/2 then
      true
    else if 50 < text.length ∧ ¬(text.data.contains ' ') then true
    else false

/-- `_detect_word_issue(user_word, expected_word)`. -/
def _detect_word_issue (user_word : Option String) (expected_word : String) : String :=
  match user_word with
  | none => "word_skipped"
  | some uw =>
    if uw = "" then "word_skipped"
    else
      let u := pyLower uw
      let e := pyLower expected_word
      if pyStartsWith e u ∧ u.length < e.length then
        "missing_ending_" ++ strDrop e u.length
      else if pyEndsWith e u ∧ u.length < e.length then
        "missing_beginning_" ++ strTake e (e.length - u.length)
      else if u.length = e.length ∧
          ((u.data.zip e.data).filter (fun p => p.1 != p.2)).length = 1 then
        match ((u.data.zip e.data).filter (fun p => p.1 != p.2)).head? with
        | some (uc, ec) =>
            "substituted_" ++ String.singleton ec ++ "_with_" ++ String.singleton uc
        | none => "mispronounced"
      else if strContains e "th" ∧ (u.data.contains 'd' ∨ u.data.contains 't') then
        "th_substitution"
      else "mispronounced"

/-- One entry of `get_word_diff`'s result list. -/
structure WordDiffEntry where
  word : String
  type : String
  position : ℕ
  user_said : Option String := none
  suggestion : Option String := none
  issue : Option String := none
deriving DecidableEq, Repr

/-- Stable insertion of an entry after every entry with position `≤` its
own. -/
def insertByPosition (x : WordDiffEntry) : List WordDiffEntry → List WordDiffEntry
  | [] => [x]
  | y :: ys => if y.position ≤ x.position then y :: insertByPosition x ys else x :: y :: ys

/-- `sorted(results, key=lambda x: x['position'])`: Python's sort is
stable, and a stable sort by key is unique, so stable insertion sort
models it exactly. -/
def sortByPosition (results : List WordDiffEntry) : List WordDiffEntry :=
  results.foldl (fun acc x => insertByPosition x acc) []

/-- `get_word_diff(transcribed_words, expected_words)`: classify the
opcodes of `SequenceMatcher(None, transcribed_words, expected_words)` and
sort the entries by position (Python's stable sort). -/
def get_word_diff (transcribed_words expected_words : List String) : List WordDiffEntry :=
  let ops := get_opcodes transcribed_words expected_words
  let results := ops.foldl (fun acc op =>
    if op.tag = "equal" then
      acc ++ (List.range (op.j2 - op.j1)).map (fun idx =>
        { word := expected_words.getD (op.j1 + idx) "", type := "correct",
          position := op.j1 + idx })
    else if op.tag = "replace" then
      acc ++ (List.range (max (op.i2 - op.i1) (op.j2 - op.j1))).filterMap (fun idx =>
        let user_word : Option String :=
          if op.i1 + idx < op.i2 then some (transcribed_words.getD (op.i1 + idx) "") else none
        let expected_word : Option String :=
          if op.j1 + idx < op.j2 then some (expected_words.getD (op.j1 + idx) "") else none
        match expected_word with
        | some ew =>
            if ew ≠ "" then
              some { word := ew, type := "wrong", position := op.j1 + idx,
                     user_said := some (match user_word with
                       | some u => if u ≠ "" then u else "(nothing)"
                       | none => "(nothing)"),
                     suggestion := some ew,
                     issue := some (_detect_word_issue user_word ew) }
            else none
        | none => none)
    else if op.tag = "delete" then
      acc ++ (List.range (op.i2 - op.i1)).map (fun idx =>
        { word := transcribed_words.getD (op.i1 + idx) "", type := "extra",
          position := op.i1 + idx,
          user_said := some (transcribed_words.getD (op.i1 + idx) "") })
    else
      acc ++ (List.range (op.j2 - op.j1)).map (fun idx =>
        { word := expected_words.getD (op.j1 + idx) "", type := "missing",
          position := op.j1 + idx,
          suggestion := some ("You missed saying '" ++ expected_words.getD (op.j1 + idx) "" ++ "'") })
    ) []
  sortByPosition results

/-! ## `word_matcher.py`: DTW/greedy word alignment

`align_words_dtw` prefers the external `dtwalign` library and falls back
to the in-repo greedy `_fallback_alignment` when that dependency is
unavailable or fails; only the fallback is code of this repository, so it
is the aligner embedded here.  The alignment-consuming code
(`get_mapped_words`, `compare_word_sequences`) is embedded over an
arbitrary index list, so its invariants below hold for either aligner. -/

/-- `_fallback_alignment(words_estimated, words_real)`: for each real word
in order, the unused estimated word with minimal edit distance, accepted
only when that distance is below the real word's length, else `-1`. -/
def _fallback_alignment (words_estimated words_real : List String) : List ℤ :=
  (words_real.foldl (fun (st : List ℤ × List ℕ) real_word =>
    let best := words_estimated.enum.foldl (fun (b : Option (ℕ × ℕ)) p =>
      if st.2.contains p.1 then b
      else
        let d := edit_distance (pyLower p.2) (pyLower real_word)
        match b with
        | none => some (p.1, d)
        | some q => if d < q.2 then some (p.1, d) else some q) none
    match best with
    | some q =>
        if q.2 < real_word.length then (st.1 ++ [(q.1 : ℤ)], st.2 ++ [q.1])
        else (st.1 ++ [(-1 : ℤ)], st.2)
    | none => (st.1 ++ [(-1 : ℤ)], st.2)) ([], [])).1

/-- One step of the best-of-several fold in `get_mapped_words` (the
`len(positions) > 1` branch): a position beyond the estimated list is
skipped, otherwise the strictly smaller edit distance wins. -/
def bestPositionStep (words_estimated words_real : List String) (word_idx : ℕ)
    (b : String × ℤ × Option ℕ) (idx : ℕ) : String × ℤ × Option ℕ :=
  if idx < words_estimated.length then
    let d := edit_distance (pyLower (words_estimated.getD idx ""))
      (pyLower (words_real.getD word_idx ""))
    match b.2.2 with
    | none => (words_estimated.getD idx "", (idx : ℤ), some d)
    | some bd =>
        if d < bd then (words_estimated.getD idx "", (idx : ℤ), some d) else b
  else b

/-- One loop iteration of `get_mapped_words`: the `(mapped_word,
mapped_index)` pair for reference word `word_idx`
(`positions = np.where(mapped_indices == word_idx)[0]`). -/
def pairFromPositions (words_estimated words_real : List String) (word_idx : ℕ)
    (positions : List ℕ) : String × ℤ :=
  match positions with
  | [] => ("-", (-1 : ℤ))
  | [idx] =>
      if idx < words_estimated.length then (words_estimated.getD idx "", (idx : ℤ))
      else ("-", (-1 : ℤ))
  | _ =>
      let best := positions.foldl (bestPositionStep words_estimated words_real word_idx)
        ("-", (-1 : ℤ), none)
      (best.1, best.2.1)

def mappedPair (mapped_indices : List ℤ) (words_estimated words_real : List String)
    (word_idx : ℕ) : String × ℤ :=
  pairFromPositions words_estimated words_real word_idx
    ((mapped_indices.enum.filter (fun p => p.2 == ((word_idx : ℕ) : ℤ))).map (·.1))

/-- The body of `get_mapped_words` given the alignment array
`mapped_indices` (one entry per estimated word on the DTW path; the
fallback aligner returns one entry per real word — the code consumes
either through `np.where(mapped_indices == word_idx)`). -/
def get_mapped_words_core (mapped_indices : List ℤ) (words_estimated words_real : List String) :
    List String × List ℤ :=
  let pairs := (List.range words_real.length).map
    (mappedPair mapped_indices words_estimated words_real)
  (pairs.map (·.1), pairs.map (·.2))

/-- `get_mapped_words(words_estimated, words_real)`:
`(mapped_words, mapped_indices)`, `'-'`/`-1` marking a reference word with
no match. -/
def get_mapped_words (words_estimated words_real : List String) : List String × List ℤ :=
  if words_real = [] then ([], [])
  else if words_estimated = [] then
    (List.replicate words_real.length "-", List.replicate words_real.length (-1))
  else get_mapped_words_core (_fallback_alignment words_estimated words_real)
    words_estimated words_real

/-- One entry of `compare_word_sequences`' result (the `is_extra` key is
only present on extra entries; absent is modelled as `false`). -/
structure WordComparison where
  position : ℤ
  expected : String
  actual : String
  actual_index : ℤ
  status : String
  similarity : ℚ
  is_match : Bool
  is_missing : Bool
  is_wrong : Bool
  is_extra : Bool := false
deriving DecidableEq, Repr

/-- The similarity a reference entry of `compare_word_sequences` is given
when the mapped word is neither `'-'` nor a normalized match:
`1 - distance / max_len` over the raw (unnormalized) lengths. -/
def entry_similarity (expected actual : String) : ℚ :=
  let distance := edit_distance (pyLower expected) (pyLower actual)
  let max_len := max expected.length actual.length
  if 0 < max_len then 1 - (distance : ℚ) / (max_len : ℚ) else 0

/-- The comparison entry `compare_word_sequences` builds for reference
word `expected` at index `i`, given the `get_mapped_words` output. -/
def refComparisonEntry (mwmi : List String × List ℤ) (i : ℕ) (expected : String) :
    WordComparison :=
  let actual := mwmi.1.getD i "-"
  let idx := mwmi.2.getD i (-1)
  if actual = "-" then
    { position := (i : ℤ), expected := expected, actual := actual, actual_index := idx,
      status := "missing", similarity := pyRound3 0, is_match := false,
      is_missing := true, is_wrong := false }
  else if pyStrip (pyLower expected) = pyStrip (pyLower actual) then
    { position := (i : ℤ), expected := expected, actual := actual, actual_index := idx,
      status := "correct", similarity := pyRound3 1, is_match := true,
      is_missing := false, is_wrong := false }
  else
    let similarity := entry_similarity expected actual
    let status := if 1/2 < similarity then "partial" else "wrong"
    { position := (i : ℤ), expected := expected, actual := actual, actual_index := idx,
      status := status, similarity := pyRound3 similarity, is_match := false,
      is_missing := false, is_wrong := true }

/-- The `extra` entry built for transcribed word `word` at index `i`, or
`none` when some reference word selected index `i` (`i ∈ used`). -/
def extraComparisonEntry (used : List ℤ) (i : ℕ) (word : String) : Option WordComparison :=
  if used.contains (i : ℤ) then none
  else some { position := (-1 : ℤ), expected := "", actual := word,
              actual_index := (i : ℤ), status := "extra", similarity := 0,
              is_match := false, is_missing := false, is_wrong := true,
              is_extra := true }

/-- `compare_word_sequences(expected_words, actual_words)`: one entry per
expected word plus an `extra` entry for every actual word no reference
word selected. -/
def compare_word_sequences (expected_words actual_words : List String) : List WordComparison :=
  let mwmi := get_mapped_words actual_words expected_words
  expected_words.enum.map (fun (p : ℕ × String) => refComparisonEntry mwmi p.1 p.2) ++
    actual_words.enum.filterMap (fun (p : ℕ × String) =>
      extraComparisonEntry (mwmi.2.filter (fun idx => 0 ≤ idx)) p.1 p.2)

/-- The mapped transcribed word the alignment selected for reference
position `i`: `none` when no transcribed word maps to it (mapped index
`-1`), otherwise the word `get_mapped_words` recorded there. -/
def mapped_word_opt (actual_words expected_words : List String) (i : ℕ) : Option String :=
  if (get_mapped_words actual_words expected_words).2.getD i (-1) = -1 then none
  else some ((get_mapped_words actual_words expected_words).1.getD i "-")

/-- The status the specification assigns to a reference entry: `missing`
when no transcribed word maps to it, `correct` on exact normalized match,
`partial` when similarity exceeds `0.5`, `wrong` otherwise. -/
def word_status_spec (expected : String) (mapped : Option String) : String :=
  match mapped with
  | none => "missing"
  | some actual =>
      if pyStrip (pyLower expected) = pyStrip (pyLower actual) then "correct"
      else if 1/2 < entry_similarity expected actual then "partial"
      else "wrong"

/-- Result of `get_word_match_summary`. -/
structure WordMatchSummary where
  total_expected : ℕ
  correct : ℕ
  partialCount : ℕ
  wrong : ℕ
  missing : ℕ
  extra : ℕ
  accuracy : ℚ
  is_perfect : Bool
deriving DecidableEq, Repr

/-- `get_word_match_summary(comparison_results)`. -/
def get_word_match_summary (rs : List WordComparison) : WordMatchSummary :=
  let total := (rs.filter (fun r => r.status != "extra")).length
  let correct := rs.countP (fun r => r.status == "correct")
  let partialCount := rs.countP (fun r => r.status == "partial")
  let wrong := rs.countP (fun r => r.status == "wrong")
  let missing := rs.countP (fun r => r.status == "missing")
  let extra := rs.countP (fun r => r.status == "extra")
  let accuracy : ℚ := if 0 < total then (correct : ℚ) / (total : ℚ) * 100 else 0
  { total_expected := total, correct := correct, partialCount := partialCount,
    wrong := wrong, missing := missing, extra := extra,
    accuracy := pyRound1 accuracy, is_perfect := correct == total && extra == 0 }

/-! ## `asr_validator.py`: `validate_speech`

`validate_speech` first transcribes the audio (external ASR, hallucination
filter applied inside `transcribe_audio`); everything after that call is
pure and embedded here, taking the transcription as input. -/

/-- Result of `validate_speech` (the `word_locations` timestamp list comes
from the external ASR singleton and is not modelled). -/
structure ValidationResult where
  status : String
  transcribed : String
  expected : String
  similarity : ℚ
  sequence_similarity : ℚ := 0
  levenshtein_similarity : ℚ := 0
  word_diff : List WordDiffEntry
  dtw_comparison : List WordComparison := []
  dtw_summary : Option WordMatchSummary := none
  missing_words : List WordDiffEntry
  extra_words : List WordDiffEntry
  wrong_words : List WordDiffEntry
  can_proceed : Bool
  message : String
deriving DecidableEq, Repr

/-- `validate_speech` after the `transcribe_audio` call: the empty-
transcription error path, whole-string similarity, word diff, DTW
comparison and the match/partial/mismatch decision. -/
def validate_speech_core (transcribed expected_text : String)
    (similarity_threshold : ℚ) : ValidationResult :=
  if transcribed = "" then
    { status := "error", transcribed := "", expected := expected_text, similarity := 0,
      word_diff := [], missing_words := [], extra_words := [], wrong_words := [],
      can_proceed := false,
      message := "Could not transcribe audio. Please speak more clearly." }
  else
    let trans_normalized := pyStrip (pyLower transcribed)
    let expected_normalized := pyStrip (pyLower expected_text)
    let sequence_similarity := sm_ratio trans_normalized.data expected_normalized.data
    let levenshtein_similarity := edit_distance_similarity trans_normalized expected_normalized
    let similarity := max sequence_similarity levenshtein_similarity
    let trans_words := pySplit trans_normalized
    let expected_words := pySplit expected_normalized
    let dtw_comparison := compare_word_sequences expected_words trans_words
    let dtw_summary := get_word_match_summary dtw_comparison
    let word_diff := get_word_diff trans_words expected_words
    let missing_words := word_diff.filter (fun w => w.type == "missing")
    let extra_words := word_diff.filter (fun w => w.type == "extra")
    let wrong_words := word_diff.filter (fun w => w.type == "wrong")
    let status :=
      if 9/10 ≤ similarity then "match"
      else if similarity_threshold ≤ similarity then "partial"
      else "mismatch"
    let can_proceed := status == "match" || status == "partial"
    let message :=
      if status = "mismatch" then
        "It sounds like you said something different. Please try saying: '" ++
          expected_text ++ "'"
      else if status = "partial" then
        "Good attempt! Found " ++ toString (missing_words.length + wrong_words.length) ++
          " word(s) to improve."
      else "Great! You said the sentence correctly."
    { status := status, transcribed := transcribed, expected := expected_text,
      similarity := pyRound3 similarity,
      sequence_similarity := pyRound3 sequence_similarity,
      levenshtein_similarity := pyRound3 levenshtein_similarity,
      word_diff := word_diff, dtw_comparison := dtw_comparison,
      dtw_summary := some dtw_summary, missing_words := missing_words,
      extra_words := extra_words, wrong_words := wrong_words,
      can_proceed := can_proceed, message := message }

/-! ## `per_scorer.py`: Phone Error Rate scorer -/

/-- The `PENALTIES` configuration dict. -/
def PENALTIES : String → ℕ
  | "substitution" => 5
  | "deletion" => 10
  | "insertion" => 3
  | "weak_phoneme" => 2
  | _ => 0

/-- The `THRESHOLDS` configuration dict (`0.85` and `0.60` are modelled
exactly). -/
def THRESHOLDS : String → ℚ
  | "correct" => 17/20
  | "weak" => 3/5
  | _ => 0

/-- f-string rendering of an optional value (`None` prints as `"None"`). -/
def pyOptStr (o : Option String) : String := o.getD "None"

/-- Python `f"{q:.0%}"`. -/
def pctFmt (q : ℚ) : String := toString (pyRoundInt (q * 100)) ++ "%"

/-- `PhonemeError` dataclass (`expected_phoneme` is `None` on insertion
records, so it is optional here). -/
structure PhonemeError where
  word : String
  position : ℕ
  expected_phoneme : Option String
  actual_phoneme : Option String
  error_type : String
  similarity : ℚ
  message : String
deriving DecidableEq, Repr

/-- `PERResult` dataclass. -/
structure PERResult where
  per_score : ℚ
  adjusted_score : ℤ
  total_phonemes : ℕ
  correct_count : ℕ
  substitutions : ℕ
  deletions : ℕ
  insertions : ℕ
  weak_count : ℕ
  errors : List PhonemeError := []
  summary : String := ""
deriving DecidableEq, Repr

/-- How `calculate_per`'s loop classifies reference position `i`: no
similarity value → deletion; else by the two thresholds. -/
inductive PhonemeKind where
  | correct
  | weak
  | substitution
  | deletion
deriving DecidableEq, Repr

def classifyAt (similarity_scores : List ℚ) (i : ℕ) : PhonemeKind :=
  match similarity_scores.get? i with
  | none => .deletion
  | some sim =>
      if THRESHOLDS "correct" ≤ sim then .correct
      else if THRESHOLDS "weak" ≤ sim then .weak
      else .substitution

/-- The error record `calculate_per`'s loop appends at reference position
`i` (`none` when the position is classified correct). -/
def perRecordAt (reference_phonemes user_phonemes : List String)
    (similarity_scores : List ℚ) (i : ℕ) : Option PhonemeError :=
  let ref_phoneme := reference_phonemes.getD i ""
  match similarity_scores.get? i with
  | none =>
      some { word := "", position := i, expected_phoneme := some ref_phoneme,
             actual_phoneme := none, error_type := "deletion", similarity := 0,
             message := "Missing phoneme /" ++ ref_phoneme ++ "/ at position " ++
               toString (i+1) ++ "." }
  | some sim =>
      let user_phoneme : Option String := user_phonemes.get? i
      if THRESHOLDS "correct" ≤ sim then none
      else if THRESHOLDS "weak" ≤ sim then
        some { word := "", position := i, expected_phoneme := some ref_phoneme,
               actual_phoneme := user_phoneme, error_type := "weak", similarity := sim,
               message := "Phoneme /" ++ ref_phoneme ++ "/ needs improvement (score: " ++
                 pctFmt sim ++ ")." }
      else
        some { word := "", position := i, expected_phoneme := some ref_phoneme,
               actual_phoneme := user_phoneme, error_type := "substitution",
               similarity := sim,
               message := "You said /" ++ pyOptStr user_phoneme ++ "/ instead of /" ++
                 ref_phoneme ++ "/." }

/-- `calculate_per(reference_phonemes, user_phonemes, similarity_scores)`. -/
def calculate_per (reference_phonemes user_phonemes : List String)
    (similarity_scores : List ℚ) : PERResult :=
  let total_ref := reference_phonemes.length
  let total_user := user_phonemes.length
  if total_ref = 0 then
    { per_score := 0, adjusted_score := 100, total_phonemes := 0, correct_count := 0,
      substitutions := 0, deletions := 0, insertions := 0, weak_count := 0,
      summary := "No phonemes to evaluate." }
  else
    let kinds := (List.range total_ref).map (classifyAt similarity_scores)
    let correct := kinds.count .correct
    let substitutions := kinds.count .substitution
    let deletions := kinds.count .deletion
    let weak := kinds.count .weak
    let mainErrors := (List.range total_ref).filterMap
      (perRecordAt reference_phonemes user_phonemes similarity_scores)
    let insertions := if total_ref < total_user then total_user - total_ref else 0
    let insErrors :=
      if total_ref < total_user then
        (List.range' total_ref (total_user - total_ref)).map (fun i =>
          { word := "", position := i, expected_phoneme := none,
            actual_phoneme := some (user_phonemes.getD i ""), error_type := "insertion",
            similarity := 0,
            message := "Extra phoneme /" ++ user_phonemes.getD i "" ++ "/ at position " ++
              toString (i+1) ++ "." })
      else ([] : List PhonemeError)
    let per : ℚ := ((substitutions + deletions + insertions : ℕ) : ℚ) / (total_ref : ℚ)
    let penalty_total : ℕ :=
      substitutions * PENALTIES "substitution" + deletions * PENALTIES "deletion" +
        insertions * PENALTIES "insertion" + weak * PENALTIES "weak_phoneme"
    let adjusted_score : ℤ := max 0 (100 - (penalty_total : ℤ))
    let summary :=
      if per = 0 ∧ weak = 0 then "Excellent! All phonemes pronounced correctly."
      else if per = 0 then
        "Good pronunciation! " ++ toString weak ++ " phoneme(s) need minor improvement."
      else if per < 3/20 then
        "Good attempt! " ++ toString (substitutions + deletions) ++ " phoneme error(s) detected."
      else if per < 3/10 then "Partial match. Please focus on the highlighted phonemes."
      else
        "Needs practice. " ++ toString (substitutions + deletions + insertions) ++
          " phoneme errors found."
    { per_score := pyRound3 per, adjusted_score := adjusted_score,
      total_phonemes := total_ref, correct_count := correct,
      substitutions := substitutions, deletions := deletions, insertions := insertions,
      weak_count := weak, errors := mainErrors ++ insErrors, summary := summary }

/-! ## `letter_highlighter.py` -/

/-- `LetterStatus` dataclass. -/
structure LetterStatus where
  letter : Char
  is_correct : Bool
  error_type : Option String := none
  expected : Option Char := none
  actual : Option Char := none
deriving DecidableEq, Repr

/-- `highlight_letter_errors(expected_word, actual_word)` with the default
`case_sensitive=False`: walk `get_edit_operations` on the lowered words,
consuming one expected character per match/substitute/delete operation,
then emit trailing deletions. -/
def highlight_letter_errors (expected_word actual_word : String) : List LetterStatus :=
  if expected_word = "" then []
  else if actual_word = "-" ∨ actual_word = "" then
    expected_word.data.map (fun ch =>
      { letter := ch, is_correct := false, error_type := some "deletion",
        expected := some ch, actual := none })
  else
    let exp := pyLower expected_word
    let act := pyLower actual_word
    let operations := get_edit_operations exp act
    let step := operations.foldl (fun (st : ℕ × List LetterStatus) op =>
      let ch := expected_word.data.getD st.1 ' '
      if op.type = "match" then
        (st.1 + 1,
          st.2 ++ [{ letter := ch, is_correct := true, expected := some ch, actual := op.char2 }])
      else if op.type = "substitute" then
        (st.1 + 1,
          st.2 ++ [{ letter := ch, is_correct := false, error_type := some "substitution",
                     expected := some ch, actual := op.char2 }])
      else if op.type = "delete" then
        (st.1 + 1,
          st.2 ++ [{ letter := ch, is_correct := false, error_type := some "deletion",
                     expected := some ch, actual := none }])
      else st) (0, [])
    step.2 ++ (expected_word.data.drop step.1).map (fun ch =>
      { letter := ch, is_correct := false, error_type := some "deletion",
        expected := some ch, actual := none })

/-- `get_letter_correctness_array`. -/
def get_letter_correctness_array (expected_word actual_word : String) : List ℕ :=
  (highlight_letter_errors expected_word actual_word).map (fun s => if s.is_correct then 1 else 0)

/-- `format_letter_errors_string`. -/
def format_letter_errors_string (expected_word actual_word : String) : String :=
  String.join ((get_letter_correctness_array expected_word actual_word).map toString)

/-- `string.punctuation` of CPython, by code point. -/
def punctuationChars : List Char :=
  ([33, 34, 35, 36, 37, 38, 39, 40, 41, 42, 43, 44, 45, 46, 47,
    58, 59, 60, 61, 62, 63, 64, 91, 92, 93, 94, 95, 96, 123, 124, 125, 126] : List ℕ).map
    Char.ofNat

/-- `highlight_sentence_letters(expected_words, actual_words)`. -/
def highlight_sentence_letters (expected_words actual_words : List String) : String :=
  let actual_words :=
    if actual_words.length < expected_words.length then
      actual_words ++ List.replicate (expected_words.length - actual_words.length) "-"
    else actual_words
  let word_results := (expected_words.zip actual_words).filterMap (fun p =>
    let clean_exp : String := ⟨p.1.data.filter (fun c => ¬ punctuationChars.contains c)⟩
    if clean_exp = "" then none
    else some (format_letter_errors_string p.1 p.2))
  String.intercalate " " word_results

/-- One entry of a highlighted word's `letters` list (`class` is a Lean
keyword; the dict key `'class'` is the `cls` field). -/
structure HighlightedLetter where
  letter : Char
  is_correct : Bool
  cls : String
  error_type : Option String
  expected : Option Char
  actual : Option Char
deriving DecidableEq, Repr

/-- Result of `generate_highlighted_word` (`error_descriptions` is the key
`_generate_letter_highlighting` adds afterwards for imperfect words). -/
structure HighlightedWord where
  word : String
  actual : String
  letters : List HighlightedLetter
  correct_count : ℕ
  total_letters : ℕ
  accuracy : ℚ
  is_perfect : Bool
  error_descriptions : List String := []
deriving DecidableEq, Repr

/-- `generate_highlighted_word` with the default CSS classes. -/
def generate_highlighted_word (expected_word actual_word : String) : HighlightedWord :=
  let statuses := highlight_letter_errors expected_word actual_word
  let letters := statuses.map (fun s =>
    { letter := s.letter, is_correct := s.is_correct,
      cls := if s.is_correct then "correct" else "incorrect",
      error_type := s.error_type, expected := s.expected, actual := s.actual })
  let correct_count := statuses.countP (·.is_correct)
  let total := statuses.length
  { word := expected_word, actual := actual_word, letters := letters,
    correct_count := correct_count, total_letters := total,
    accuracy := if 0 < total then (correct_count : ℚ) / (total : ℚ) * 100 else 0,
    is_perfect := correct_count == total && total != 0 }

/-- Result of `generate_highlighted_sentence`. -/
structure LetterHighlighting where
  words : List HighlightedWord
  total_correct_letters : ℕ := 0
  total_letters : ℕ
  letter_accuracy : ℚ
  word_count : ℕ := 0
  perfect_words : ℕ := 0
  letter_errors_string : String := ""
deriving DecidableEq, Repr

/-- `generate_highlighted_sentence(expected_words, actual_words)`. -/
def generate_highlighted_sentence (expected_words actual_words : List String) :
    LetterHighlighting :=
  let actual_words :=
    if actual_words.length < expected_words.length then
      actual_words ++ List.replicate (expected_words.length - actual_words.length) "-"
    else actual_words
  let words := (expected_words.zip actual_words).map (fun p =>
    generate_highlighted_word p.1 p.2)
  let total_correct := (words.map (·.correct_count)).sum
  let total_letters := (words.map (·.total_letters)).sum
  { words := words, total_correct_letters := total_correct, total_letters := total_letters,
    letter_accuracy :=
      if 0 < total_letters then (total_correct : ℚ) / (total_letters : ℚ) * 100 else 0,
    word_count := expected_words.length, perfect_words := words.countP (·.is_perfect),
    letter_errors_string := highlight_sentence_letters expected_words actual_words }

/-- `describe_letter_errors(expected_word, actual_word)`. -/
def describe_letter_errors (expected_word actual_word : String) : List String :=
  (highlight_letter_errors expected_word actual_word).enum.filterMap
    (fun (p : ℕ × LetterStatus) =>
      if p.2.is_correct then none
      else if p.2.error_type = some "deletion" then
        some ("Missing '" ++ String.singleton p.2.letter ++ "' at position " ++
          toString (p.1 + 1))
      else if p.2.error_type = some "substitution" then
        some ("Position " ++ toString (p.1 + 1) ++ ": said '" ++
          (match p.2.actual with | some c => String.singleton c | none => "None") ++
          "' instead of '" ++ String.singleton p.2.letter ++ "'")
      else none)

/-! ## `mistake_detector.py`: the Mistake Synthesizer

`MistakeDetector.detect_mistakes` combines the validation gate's word
diff, the phoneme scores and the letter highlighter into one report.  Its
only impure step is the LLM tip generator (`_generate_ai_tips`), which is
modelled by an oracle parameter: `some tips` is a successful LLM response
(used only when its length matches, as in the source), `none` is any
failure (the source's `except` path).  The source mutates the
`suggestion` field of the shared weak-phoneme `Mistake` objects; here the
mutation is the pure `applyTipsAux` pass, and the mutated phoneme-mistake
list (the same objects in Python) is the tail of the mutated combined
list — `_detect_word_mistakes` never produces a `weak_phoneme` entry. -/

/-- Python `str.replace(pat, rep)` (all occurrences; fuel = input length). -/
def replaceAux (pat rep : List Char) : ℕ → List Char → List Char
  | _, [] => []
  | 0, l => l
  | f+1, c :: rest =>
      if pat ≠ [] ∧ pat.isPrefixOf (c :: rest) then
        rep ++ replaceAux pat rep f ((c :: rest).drop pat.length)
      else c :: replaceAux pat rep f rest

def strReplace (s pat rep : String) : String :=
  ⟨replaceAux pat.data rep.data s.data.length s.data⟩

/-- Python `str.split(sep)` with a non-empty separator. -/
def splitOnAux (sep : List Char) : ℕ → List Char → List Char → List String
  | _, [], cur => [⟨cur.reverse⟩]
  | 0, l, cur => [⟨cur.reverse ++ l⟩]
  | f+1, c :: rest, cur =>
      if sep ≠ [] ∧ sep.isPrefixOf (c :: rest) then
        ⟨cur.reverse⟩ :: splitOnAux sep f ((c :: rest).drop sep.length) []
      else splitOnAux sep f rest (c :: cur)

def strSplitOn (s sep : String) : List String := splitOnAux sep.data s.data.length s.data []

/-- `Mistake` dataclass. -/
structure Mistake where
  type : String
  position : ℕ
  expected : String
  actual : String
  severity : String
  suggestion : String
  phoneme : Option String := none
  word : Option String := none
deriving DecidableEq, Repr

/-- `_detect_word_mistakes(asr_result)`: classify each `word_diff` entry. -/
def _detect_word_mistakes (word_diff : List WordDiffEntry) : List Mistake :=
  word_diff.flatMap (fun diff =>
    if diff.type = "missing" then
      [{ type := "missing_word", position := diff.position, expected := diff.word,
         actual := "(not spoken)", severity := "major",
         suggestion := "You skipped the word '" ++ diff.word ++
           "'. Try saying the complete sentence.",
         word := some diff.word }]
    else if diff.type = "wrong" then
      let issue := diff.issue.getD "mispronounced"
      let user_said := diff.user_said.getD ""
      let expected_word := diff.word
      if strContains issue "missing_ending" then
        let missing := strReplace issue "missing_ending_" ""
        [{ type := "missing_sound", position := diff.position, expected := expected_word,
           actual := user_said, severity := "moderate",
           suggestion := "You said '" ++ user_said ++ "' but it should be '" ++
             expected_word ++ "'. Don't forget the '" ++ missing ++ "' at the end!",
           word := some expected_word }]
      else if strContains issue "missing_beginning" then
        let missing := strReplace issue "missing_beginning_" ""
        [{ type := "missing_sound", position := diff.position, expected := expected_word,
           actual := user_said, severity := "moderate",
           suggestion := "You said '" ++ user_said ++ "' but it should be '" ++
             expected_word ++ "'. Start with '" ++ missing ++ "'.",
           word := some expected_word }]
      else if strContains issue "substituted" then
        let parts := strSplitOn (strReplace issue "substituted_" "") "_with_"
        match parts with
        | [expected_sound, user_sound] =>
            [{ type := "wrong_sound", position := diff.position, expected := expected_word,
               actual := user_said, severity := "minor",
               suggestion := "In '" ++ expected_word ++ "', you used '" ++ user_sound ++
                 "' instead of '" ++ expected_sound ++ "'.",
               word := some expected_word }]
        | _ =>
            [{ type := "wrong_word", position := diff.position, expected := expected_word,
               actual := user_said, severity := "moderate",
               suggestion := "'" ++ user_said ++ "' should be '" ++ expected_word ++ "'.",
               word := some expected_word }]
      else if issue = "th_substitution" then
        [{ type := "wrong_sound", position := diff.position, expected := expected_word,
           actual := user_said, severity := "moderate",
           suggestion := "In '" ++ expected_word ++
             "', the 'TH' sound was pronounced as 'D' or 'T'. Put your tongue between your teeth.",
           word := some expected_word, phoneme := some "TH" }]
      else
        [{ type := "wrong_word", position := diff.position, expected := expected_word,
           actual := user_said, severity := "major",
           suggestion := "You said '" ++ user_said ++ "' instead of '" ++ expected_word ++
             "'. Practice this word.",
           word := some expected_word }]
    else if diff.type = "extra" then
      [{ type := "extra_word", position := diff.position, expected := "(nothing)",
         actual := diff.user_said.getD "", severity := "minor",
         suggestion := "You added an extra word '" ++ diff.user_said.getD "" ++
           "'. Try to match the exact sentence.",
         word := some (diff.user_said.getD "") }]
    else [])

/-- `error_counts` dict of `_detect_phoneme_mistakes_classified` (also the
`error_classification` entry of the final report). -/
structure ErrorCounts where
  substitution : ℕ := 0
  deletion : ℕ := 0
  insertion : ℕ := 0
  weak : ℕ := 0
deriving DecidableEq, Repr

/-- One phoneme score dict from the scorer: `{'phoneme', 'score', 'word'}`. -/
structure PhonemeScore where
  phoneme : String
  score : ℚ
  word : String := ""
deriving DecidableEq, Repr

/-- `_detect_phoneme_mistakes_classified(phoneme_scores)`. -/
def _detect_phoneme_mistakes_classified (phoneme_scores : List PhonemeScore) :
    List Mistake × ErrorCounts :=
  let mistakes := phoneme_scores.enum.filterMap (fun (p : ℕ × PhonemeScore) =>
    let idx := p.1
    let score := p.2.score
    let phoneme := p.2.phoneme
    let word := p.2.word
    if THRESHOLDS "correct" ≤ score then none
    else if THRESHOLDS "weak" ≤ score then
      some { type := "weak_phoneme", position := idx, expected := phoneme,
             actual := "(weak: " ++ pctFmt score ++ ")", severity := "minor",
             suggestion := "The '" ++ phoneme ++ "' sound in '" ++ word ++
               "' needs to be clearer.",
             phoneme := some phoneme, word := some word }
    else
      let severity :=
        if score < 3/10 then "major" else if score < 1/2 then "moderate" else "minor"
      some { type := "substitution", position := idx, expected := phoneme,
             actual := "(wrong: " ++ pctFmt score ++ ")", severity := severity,
             suggestion := "In '" ++ word ++ "': The '" ++ phoneme ++
               "' sound was incorrect.",
             phoneme := some phoneme, word := some word })
  let counts : ErrorCounts :=
    { substitution := phoneme_scores.countP (fun ps => ps.score < THRESHOLDS "weak"),
      weak := phoneme_scores.countP (fun ps =>
        decide (THRESHOLDS "weak" ≤ ps.score) && decide (ps.score < THRESHOLDS "correct")) }
  (mistakes, counts)

/-- The substitution sentence of `_generate_specific_errors`, given the
first substitution mistake found (if any). -/
def subErrorsStep (errors2 : List String) (substitutions : ℕ)
    (found : Option Mistake) : List String :=
  if 0 < substitutions then
    if substitutions = 1 then
      match found with
      | some m =>
          errors2 ++ ["You mispronounced the '" ++ m.phoneme.getD "None" ++
            "' sound in '" ++ m.word.getD "None" ++ "'."]
      | none => errors2
    else errors2 ++ ["You mispronounced " ++ toString substitutions ++ " phonemes."]
  else errors2

/-- The weak-phoneme sentence of `_generate_specific_errors`, given the
first weak-phoneme mistake found (if any). -/
def weakErrorsStep (errors3 : List String) (weak_count : ℕ)
    (found : Option Mistake) : List String :=
  if 0 < weak_count ∧ errors3.length < 5 then
    if weak_count = 1 then
      match found with
      | some m =>
          errors3 ++ ["The '" ++ m.phoneme.getD "None" ++ "' sound needs to be clearer."]
      | none => errors3
    else errors3 ++ [toString weak_count ++ " phonemes need to be clearer."]
  else errors3

/-- `_generate_specific_errors(word_mistakes, phoneme_mistakes, error_counts,
expected_text)`. -/
def _generate_specific_errors (word_mistakes phoneme_mistakes : List Mistake)
    (error_counts : ErrorCounts) : List String :=
  let missing_words := word_mistakes.filter (fun m => m.type == "missing_word")
  let errors1 : List String :=
    if missing_words ≠ [] then
      let words := missing_words.map (fun m => m.word.getD "None")
      if words.length = 1 then
        ["You missed the word '" ++ words.headD "" ++ "'."]
      else
        ["You missed " ++ toString words.length ++ " words: " ++
          String.intercalate ", " words ++ "."]
    else []
  let wrong_words := word_mistakes.filter
    (fun m => m.type == "wrong_word" || m.type == "missing_sound")
  let errors2 := errors1 ++ (wrong_words.take 3).map (·.suggestion)
  let errors3 := subErrorsStep errors2 error_counts.substitution
    (phoneme_mistakes.find? (fun m => m.type == "substitution"))
  weakErrorsStep errors3 error_counts.weak
    (phoneme_mistakes.find? (fun m => m.type == "weak_phoneme"))

/-- `_generate_letter_highlighting(asr_result)` (the empty-input dict of
the source uses two legacy key names for the same zeroed values). -/
def _generate_letter_highlighting (asr_result : ValidationResult) : LetterHighlighting :=
  let expected := asr_result.expected
  let transcribed := asr_result.transcribed
  if expected = "" ∨ transcribed = "" then
    { words := [], total_letters := 0, letter_accuracy := 0 }
  else
    let expected_words := pySplit (pyLower expected)
    let dtw_comparison := asr_result.dtw_comparison
    let actual_words :=
      if dtw_comparison ≠ [] then
        (dtw_comparison.filter (fun c => c.status != "extra")).map (·.actual)
      else pySplit (pyLower transcribed)
    let highlighting := generate_highlighted_sentence expected_words actual_words
    { highlighting with
        words := highlighting.words.map (fun w =>
          if ¬ w.is_perfect then
            { w with error_descriptions := describe_letter_errors w.word w.actual }
          else w) }

/-- One entry of the feedback `tips` list. -/
structure FeedbackTip where
  type : String
  expected : String
  actual : String
  word : Option String
  phoneme : Option String
  severity : String
  suggestion : String
deriving DecidableEq, Repr

/-- The feedback dict of `_generate_feedback`. -/
structure Feedback where
  status : String
  message : String
  tips : List FeedbackTip
deriving DecidableEq, Repr

/-- The external LLM tip generator: given the expected sentence and the
weak-phoneme mistakes, `some tips` on success, `none` on any failure. -/
def TipOracle : Type := String → List Mistake → Option (List String)

/-- `_get_fallback_tip(phoneme)`: the static lookup keyed by the
stress-stripped base phoneme. -/
def _get_fallback_tip (phoneme : String) : String :=
  let base : String := ⟨phoneme.data.filter (fun c => ¬ c.isDigit)⟩
  if base = "TH" then "Put your tongue between your teeth and blow air."
  else if base = "DH" then "Put tongue between teeth, add voice for 'TH' in 'the'."
  else if base = "R" then "Curl your tongue back slightly."
  else if base = "L" then "Touch tongue tip to the roof of your mouth."
  else if base = "SH" then "Round your lips and push air through."
  else if base = "CH" then "Start with tongue at roof, release with 'SH'."
  else if base = "S" then "Keep tongue behind teeth for a clear 'S'."
  else if base = "Z" then "Add voice to the 'S' sound."
  else if base = "NG" then "Sound comes from back of throat."
  else if base = "W" then "Round your lips like saying 'oo'."
  else if base = "Y" then "Touch tongue to roof, slide to the next sound."
  else if base = "V" then "Touch upper teeth to lower lip, add voice."
  else if base = "F" then "Touch upper teeth to lower lip, blow air."
  else "Practice the '" ++ phoneme ++ "' sound more carefully."

/-- `_generate_ai_tips`: the oracle's answer when it is a list of the
right length, else one fallback tip per weak phoneme. -/
def _generate_ai_tips (oracle : TipOracle) (expected_text : String)
    (weak_phonemes : List Mistake) : List String :=
  if weak_phonemes = [] then []
  else
    match oracle expected_text weak_phonemes with
    | some tips =>
        if tips.length = weak_phonemes.length then tips
        else weak_phonemes.map (fun m => _get_fallback_tip (m.phoneme.getD ""))
    | none => weak_phonemes.map (fun m => _get_fallback_tip (m.phoneme.getD ""))

/-- The in-place `for mistake, tip in zip(weak_phonemes, ai_tips):
mistake.suggestion = tip` pass, rendered purely: each `weak_phoneme`
entry in order receives the next tip (entries beyond the tip list are
left unchanged, as `zip` stops). -/
def applyTipsAux (tips : List String) : List Mistake → List Mistake
  | [] => []
  | m :: ms =>
      if m.type = "weak_phoneme" then
        match tips with
        | [] => m :: ms
        | t :: trest => { m with suggestion := t } :: applyTipsAux trest ms
      else m :: applyTipsAux tips ms

/-- `_generate_feedback(mistakes, expected_text, phoneme_scores)`: returns
the feedback dict and the mistake list after the AI-tip mutation (the
source mutates the shared objects; grouping by severity commutes with the
mutation since it never changes `severity`). -/
def _generate_feedback (oracle : TipOracle) (mistakes : List Mistake)
    (expected_text : String) : Feedback × List Mistake :=
  if mistakes = [] then
    ({ status := "excellent",
       message := "Great job! You pronounced everything correctly!", tips := [] },
     mistakes)
  else
    let weak_phonemes := mistakes.filter (fun m => m.type == "weak_phoneme")
    let ai_tips := _generate_ai_tips oracle expected_text weak_phonemes
    let mistakes2 := applyTipsAux ai_tips mistakes
    let major := mistakes2.filter (fun m => m.severity == "major")
    let moderate := mistakes2.filter (fun m => m.severity == "moderate")
    let minor := mistakes2.filter (fun m => m.severity == "minor")
    let status :=
      if major ≠ [] then "needs_work"
      else if moderate ≠ [] then "good"
      else "almost_perfect"
    let message :=
      if major ≠ [] then
        "Found " ++ toString major.length ++ " significant issue(s). Let's work on them!"
      else if moderate ≠ [] then
        "Good attempt! Just " ++ toString moderate.length ++ " thing(s) to improve."
      else "Almost perfect! Just " ++ toString minor.length ++ " minor detail(s)."
    let all_mistakes := major ++ moderate ++ minor
    let tips := (all_mistakes.take 5).map (fun m =>
      { type := m.type, expected := m.expected, actual := m.actual, word := m.word,
        phoneme := m.phoneme, severity := m.severity, suggestion := m.suggestion })
    ({ status := status, message := message, tips := tips }, mistakes2)

/-- `_generate_summary(mistakes)`. -/
def _generate_summary (mistakes : List Mistake) : String :=
  if mistakes = [] then "Perfect pronunciation!"
  else
    let word_errors := (mistakes.filter (fun m => strContains m.type "word")).length
    let sound_errors := (mistakes.filter
      (fun m => strContains m.type "sound" || strContains m.type "phoneme")).length
    let parts :=
      (if word_errors ≠ 0 then [toString word_errors ++ " word(s)"] else []) ++
        (if sound_errors ≠ 0 then [toString sound_errors ++ " sound(s)"] else [])
    if parts ≠ [] then "Work on: " ++ String.intercalate ", " parts
    else "Minor improvements needed"

/-- The report dict `detect_mistakes` returns. -/
structure MistakeReport where
  has_mistakes : Bool
  mistakes : List Mistake
  mistake_count : ℕ
  word_errors : ℕ
  phoneme_errors : ℕ
  error_classification : ErrorCounts
  per_score : ℚ
  adjusted_score : ℤ
  per_adjusted_score : ℤ
  letter_accuracy : ℚ
  per_summary : String
  specific_errors : List String
  feedback : Feedback
  letter_highlighting : LetterHighlighting
  summary : String
deriving DecidableEq, Repr

/-- `MistakeDetector.detect_mistakes(asr_result, phoneme_scores,
expected_text)`: word mistakes, classified phoneme mistakes, PER scoring
over `calculate_per(phonemes, phonemes, similarities)`, letter
highlighting, the 0.4/0.6 blend (`int()` truncation) and the 5-point
penalty per word mistake. -/
def detect_mistakes (oracle : TipOracle) (asr_result : ValidationResult)
    (phoneme_scores : List PhonemeScore) (expected_text : String) : MistakeReport :=
  let word_mistakes := _detect_word_mistakes asr_result.word_diff
  let pm := _detect_phoneme_mistakes_classified phoneme_scores
  let phoneme_mistakes := pm.1
  let error_counts := pm.2
  let phonemes := phoneme_scores.map (·.phoneme)
  let similarities := phoneme_scores.map (·.score)
  let per_result := calculate_per phonemes phonemes similarities
  let letter_highlighting := _generate_letter_highlighting asr_result
  let mistakes := word_mistakes ++ phoneme_mistakes
  let fb := _generate_feedback oracle mistakes expected_text
  let feedback := fb.1
  let mistakes_mut := fb.2
  let phoneme_mut := mistakes_mut.drop word_mistakes.length
  let specific_errors := _generate_specific_errors word_mistakes phoneme_mut error_counts
  let letter_accuracy := letter_highlighting.letter_accuracy
  let per_adjusted := per_result.adjusted_score
  let final_base : ℤ := pyInt ((2/5 : ℚ) * (per_adjusted : ℚ) + (3/5 : ℚ) * letter_accuracy)
  let final_adjusted_score : ℤ :=
    if 0 < word_mistakes.length then
      max 0 (final_base - (word_mistakes.length : ℤ) * 5)
    else final_base
  { has_mistakes := mistakes_mut.length != 0,
    mistakes := mistakes_mut, mistake_count := mistakes_mut.length,
    word_errors := word_mistakes.length, phoneme_errors := phoneme_mistakes.length,
    error_classification := error_counts,
    per_score := per_result.per_score, adjusted_score := final_adjusted_score,
    per_adjusted_score := per_adjusted, letter_accuracy := letter_accuracy,
    per_summary := per_result.summary, specific_errors := specific_errors,
    feedback := feedback, letter_highlighting := letter_highlighting,
    summary := _generate_summary mistakes_mut }

/-! ## Claim theorems -/

set_option maxRecDepth 1000000
set_option maxHeartbeats 2000000

/-- C6: For every string `a`, `edit_distance(a, a) = 0`; for every pair of
strings `a` and `b`, `edit_distance(a, b) = edit_distance(b, a)`; and
`edit_distance_normalized(a, b)` lies in `[0, 1]`, defined as `0` when
both strings are empty. -/
theorem C6_edit_distance_metric_properties :
    (∀ a : String, edit_distance a a = 0) ∧
    (∀ a b : String, edit_distance a b = edit_distance b a) ∧
    (∀ a b : String,
      0 ≤ edit_distance_normalized a b ∧ edit_distance_normalized a b ≤ 1) ∧
    edit_distance_normalized "" "" = 0 := by
  refine ⟨fun a => edCell_self_diag a.data a.data.length,
    fun a b => edCell_symm a.data b.data a.data.length b.data.length,
    fun a b => ⟨edit_distance_normalized_nonneg a b, edit_distance_normalized_le_one a b⟩,
    ?_⟩
  rfl

/-- C9: For every pair of strings `a` and `b`, the number of non-match
operations (substitute, delete, insert) in the list returned by
`get_edit_operations(a, b)` equals `edit_distance(a, b)`. -/
theorem C9_edit_operations_count_eq_edit_distance (a b : String) :
    nonMatchOps (get_edit_operations a b) = edit_distance a b := by
  unfold get_edit_operations edit_distance
  rw [nonMatchOps_backAux a.data b.data _ _ _ (le_refl _)]
  exact (edCell_eq_opsCell a.data b.data _ _).symm

/-- C10: The hallucination filter returns `False` for every text of
length less than 3, even when the text is entirely non-ASCII; conversely,
a text the filter flags has length at least 3. -/
theorem C10_hallucination_needs_three_chars :
    (∀ text : String, text.length < 3 → _is_hallucination text = false) ∧
    (∀ text : String, _is_hallucination text = true → 3 ≤ text.length) := by
  constructor
  · intro text h
    unfold _is_hallucination
    rw [if_pos (Or.inr h)]
  · intro text h
    by_contra hlen
    rw [_is_hallucination, if_pos (Or.inr (by omega))] at h
    exact Bool.false_ne_true h

/-- C10 witness: the two-character all-non-ASCII text `"éé"` is not
flagged. -/
theorem C10_hallucination_needs_three_chars_witness :
    ("éé" : String).length < 3 ∧ _is_hallucination "éé" = false :=
  ⟨by decide, C10_hallucination_needs_three_chars.1 "éé" (by decide)⟩

unseal Rat.mul Rat.inv Rat.add Rat.sub in
/-- C5: The hallucination filter flags a 60-character string of the
repeated character `"é"` (non-ASCII ratio `> 0.3` and a single character
repeated `≥ 6` times consecutively), and does not flag
`"she sells seashells by the seashore"`. -/
theorem C5_hallucination_filter_examples :
    (String.mk (List.replicate 60 (Char.ofNat 233))).length = 60 ∧
    _is_hallucination (String.mk (List.replicate 60 (Char.ofNat 233))) = true ∧
    _is_hallucination "she sells seashells by the seashore" = false := by
  decide

unseal Rat.mul Rat.inv Rat.add Rat.sub in
/-- C4: For every call to `calculate_per` with a non-empty reference,
`adjusted_score = max(0, 100 − (5·substitutions + 10·deletions +
3·insertions + 2·weak))`; in particular a single substitution at
similarity `0.5` among 5 phonemes (the others at `1.0`) yields
`per_score = 1/5` and `adjusted_score = 95`. -/
theorem C4_adjusted_score_formula :
    (∀ (ref user : List String) (sims : List ℚ), ref ≠ [] →
      (calculate_per ref user sims).adjusted_score =
        max 0 (100 -
          (5 * ((calculate_per ref user sims).substitutions : ℤ) +
           10 * ((calculate_per ref user sims).deletions : ℤ) +
           3 * ((calculate_per ref user sims).insertions : ℤ) +
           2 * ((calculate_per ref user sims).weak_count : ℤ)))) ∧
    ((calculate_per ["DH","AH","K","AE","T"] ["DH","AH","K","AE","T"]
        [1, 1, 1/2, 1, 1]).per_score = 1/5 ∧
     (calculate_per ["DH","AH","K","AE","T"] ["DH","AH","K","AE","T"]
        [1, 1, 1/2, 1, 1]).adjusted_score = 95) := by
  constructor
  · intro ref user sims href
    have h0 : ¬ (ref.length = 0) := by
      simpa [List.length_eq_zero] using href
    simp only [calculate_per, if_neg h0]
    have hp1 : PENALTIES "substitution" = 5 := rfl
    have hp2 : PENALTIES "deletion" = 10 := rfl
    have hp3 : PENALTIES "insertion" = 3 := rfl
    have hp4 : PENALTIES "weak_phoneme" = 2 := rfl
    rw [hp1, hp2, hp3, hp4]
    push_cast
    omega
  · exact ⟨by decide, by decide⟩

/-- C4 witness: the formula applied at the concrete 5-phoneme call. -/
theorem C4_adjusted_score_formula_witness :
    (["DH","AH","K","AE","T"] : List String) ≠ [] ∧
    (calculate_per ["DH","AH","K","AE","T"] ["DH","AH","K","AE","T"]
        [1, 1, 1/2, 1, 1]).adjusted_score =
      max 0 (100 -
        (5 * ((calculate_per ["DH","AH","K","AE","T"] ["DH","AH","K","AE","T"]
            [1, 1, 1/2, 1, 1]).substitutions : ℤ) +
         10 * ((calculate_per ["DH","AH","K","AE","T"] ["DH","AH","K","AE","T"]
            [1, 1, 1/2, 1, 1]).deletions : ℤ) +
         3 * ((calculate_per ["DH","AH","K","AE","T"] ["DH","AH","K","AE","T"]
            [1, 1, 1/2, 1, 1]).insertions : ℤ) +
         2 * ((calculate_per ["DH","AH","K","AE","T"] ["DH","AH","K","AE","T"]
            [1, 1, 1/2, 1, 1]).weak_count : ℤ))) :=
  ⟨by decide, C4_adjusted_score_formula.1 _ _ _ (by decide)⟩

theorem perRecordAt_of_correct (ref user : List String) (sims : List ℚ) (i : ℕ) (s : ℚ)
    (hget : sims.get? i = some s) (hs : 17/20 ≤ s) :
    perRecordAt ref user sims i = none := by
  unfold perRecordAt
  rw [hget]
  exact if_pos hs

theorem perRecordAt_of_missing (ref user : List String) (sims : List ℚ) (i : ℕ)
    (hget : sims.get? i = none) :
    perRecordAt ref user sims i =
      some { word := "", position := i, expected_phoneme := some (ref.getD i ""),
             actual_phoneme := none, error_type := "deletion", similarity := 0,
             message := "Missing phoneme /" ++ ref.getD i "" ++ "/ at position " ++
               toString (i+1) ++ "." } := by
  unfold perRecordAt
  rw [hget]

theorem classifyAt_of_correct (sims : List ℚ) (i : ℕ) (s : ℚ)
    (hget : sims.get? i = some s) (hs : 17/20 ≤ s) : classifyAt sims i = .correct := by
  unfold classifyAt
  rw [hget]
  exact if_pos hs

theorem classifyAt_of_missing (sims : List ℚ) (i : ℕ)
    (hget : sims.get? i = none) : classifyAt sims i = .deletion := by
  unfold classifyAt
  rw [hget]

unseal Rat.mul Rat.inv Rat.add Rat.sub in
/-- C3: In `calculate_per`, every reference position `i` with no
similarity value produces a deletion error record; for the 5-phoneme
reference with only 3 similarity values (each `≥ 0.85`), exactly the two
trailing deletion records appear and `per_score = 2/5`. -/
theorem C3_missing_similarity_is_deletion :
    (∀ (ref user : List String) (sims : List ℚ) (i : ℕ),
      i < ref.length → sims.length ≤ i →
      ∃ e ∈ (calculate_per ref user sims).errors,
        e.error_type = "deletion" ∧ e.position = i ∧
        e.expected_phoneme = some (ref.getD i "") ∧ e.actual_phoneme = none) ∧
    (∀ s0 s1 s2 : ℚ, 17/20 ≤ s0 → 17/20 ≤ s1 → 17/20 ≤ s2 →
      (calculate_per ["DH","AH","K","AE","T"] ["DH","AH","K","AE","T"]
          [s0, s1, s2]).errors =
        [{ word := "", position := 3, expected_phoneme := some "AE",
           actual_phoneme := none, error_type := "deletion", similarity := 0,
           message := "Missing phoneme /AE/ at position 4." },
         { word := "", position := 4, expected_phoneme := some "T",
           actual_phoneme := none, error_type := "deletion", similarity := 0,
           message := "Missing phoneme /T/ at position 5." }] ∧
      (calculate_per ["DH","AH","K","AE","T"] ["DH","AH","K","AE","T"]
          [s0, s1, s2]).per_score = 2/5 ∧
      (calculate_per ["DH","AH","K","AE","T"] ["DH","AH","K","AE","T"]
          [s0, s1, s2]).deletions = 2) := by
  constructor
  · intro ref user sims i h1 h2
    have h0 : ¬ (ref.length = 0) := by omega
    refine ⟨{ word := "", position := i, expected_phoneme := some (ref.getD i ""),
              actual_phoneme := none, error_type := "deletion", similarity := 0,
              message := "Missing phoneme /" ++ ref.getD i "" ++ "/ at position " ++
                toString (i+1) ++ "." }, ?_, rfl, rfl, rfl, rfl⟩
    simp only [calculate_per, if_neg h0]
    apply List.mem_append_left
    apply List.mem_filterMap.mpr
    exact ⟨i, List.mem_range.mpr h1,
      perRecordAt_of_missing ref user sims i (List.get?_eq_none.mpr h2)⟩
  · intro s0 s1 s2 h0 h1 h2
    have hr : List.range (["DH","AH","K","AE","T"] : List String).length = [0, 1, 2, 3, 4] := rfl
    have e0 := perRecordAt_of_correct ["DH","AH","K","AE","T"] ["DH","AH","K","AE","T"]
      [s0, s1, s2] 0 s0 rfl h0
    have e1 := perRecordAt_of_correct ["DH","AH","K","AE","T"] ["DH","AH","K","AE","T"]
      [s0, s1, s2] 1 s1 rfl h1
    have e2 := perRecordAt_of_correct ["DH","AH","K","AE","T"] ["DH","AH","K","AE","T"]
      [s0, s1, s2] 2 s2 rfl h2
    have e3 := perRecordAt_of_missing ["DH","AH","K","AE","T"] ["DH","AH","K","AE","T"]
      [s0, s1, s2] 3 rfl
    have e4 := perRecordAt_of_missing ["DH","AH","K","AE","T"] ["DH","AH","K","AE","T"]
      [s0, s1, s2] 4 rfl
    have c0 := classifyAt_of_correct [s0, s1, s2] 0 s0 rfl h0
    have c1 := classifyAt_of_correct [s0, s1, s2] 1 s1 rfl h1
    have c2 := classifyAt_of_correct [s0, s1, s2] 2 s2 rfl h2
    have c3 := classifyAt_of_missing [s0, s1, s2] 3 rfl
    have c4 := classifyAt_of_missing [s0, s1, s2] 4 rfl
    have hk : List.map (classifyAt [s0, s1, s2])
        (List.range (["DH","AH","K","AE","T"] : List String).length) =
        [.correct, .correct, .correct, .deletion, .deletion] := by
      rw [hr]
      simp only [List.map_cons, List.map_nil, c0, c1, c2, c3, c4]
    have hcs : List.count PhonemeKind.substitution
        [PhonemeKind.correct, .correct, .correct, .deletion, .deletion] = 0 := by decide
    have hcd : List.count PhonemeKind.deletion
        [PhonemeKind.correct, .correct, .correct, .deletion, .deletion] = 2 := by decide
    refine ⟨?_, ?_, ?_⟩
    · simp only [calculate_per, if_neg (show ¬(((["DH","AH","K","AE","T"] : List String)).length = 0) by decide),
        hr, List.filterMap_cons, List.filterMap_nil, e0, e1, e2, e3, e4]
      rfl
    · simp only [calculate_per, if_neg (show ¬(((["DH","AH","K","AE","T"] : List String)).length = 0) by decide),
        hk, hcs, hcd]
      norm_num [pyRound3, pyRoundInt]
    · simp only [calculate_per, if_neg (show ¬(((["DH","AH","K","AE","T"] : List String)).length = 0) by decide),
        hk, hcd]

/-- C3 witness: both parts at similarity values `0.9`. -/
theorem C3_missing_similarity_is_deletion_witness :
    (∃ e ∈ (calculate_per ["DH","AH","K","AE","T"] ["DH","AH","K","AE","T"]
        [9/10, 9/10, 9/10]).errors,
      e.error_type = "deletion" ∧ e.position = 3 ∧
      e.expected_phoneme = some ((["DH","AH","K","AE","T"] : List String).getD 3 "") ∧
      e.actual_phoneme = none) ∧
    ((calculate_per ["DH","AH","K","AE","T"] ["DH","AH","K","AE","T"]
        [9/10, 9/10, 9/10]).errors =
      [{ word := "", position := 3, expected_phoneme := some "AE",
         actual_phoneme := none, error_type := "deletion", similarity := 0,
         message := "Missing phoneme /AE/ at position 4." },
       { word := "", position := 4, expected_phoneme := some "T",
         actual_phoneme := none, error_type := "deletion", similarity := 0,
         message := "Missing phoneme /T/ at position 5." }] ∧
     (calculate_per ["DH","AH","K","AE","T"] ["DH","AH","K","AE","T"]
        [9/10, 9/10, 9/10]).per_score = 2/5 ∧
     (calculate_per ["DH","AH","K","AE","T"] ["DH","AH","K","AE","T"]
        [9/10, 9/10, 9/10]).deletions = 2) :=
  ⟨C3_missing_similarity_is_deletion.1 _ _ _ 3 (by decide) (by decide),
   C3_missing_similarity_is_deletion.2 (9/10) (9/10) (9/10)
     (by norm_num) (by norm_num) (by norm_num)⟩

theorem pyInt_nonneg {q : ℚ} (h : 0 ≤ q) : 0 ≤ pyInt q := by
  unfold pyInt
  rw [if_pos h]
  exact Int.floor_nonneg.mpr h

theorem calculate_per_adjusted_nonneg (r u : List String) (s : List ℚ) :
    0 ≤ (calculate_per r u s).adjusted_score := by
  by_cases h : r.length = 0
  · simp only [calculate_per, if_pos h]
    norm_num
  · simp only [calculate_per, if_neg h]
    exact le_max_left 0 _

theorem generate_highlighted_sentence_accuracy_nonneg (e a : List String) :
    0 ≤ (generate_highlighted_sentence e a).letter_accuracy := by
  simp only [generate_highlighted_sentence]
  split <;> split <;> positivity

theorem letter_highlighting_accuracy_nonneg (asr : ValidationResult) :
    0 ≤ (_generate_letter_highlighting asr).letter_accuracy := by
  simp only [_generate_letter_highlighting]
  split
  · norm_num
  · exact generate_highlighted_sentence_accuracy_nonneg _ _

/-- The blended score exactly as C1's sentence words it
(`round`, then the per-word penalty, floored at 0) — to be compared with
the code's `int()`-truncating blend. -/
def blended_score_spec (per_adjusted : ℤ) (letter_accuracy : ℚ)
    (word_mistake_count : ℕ) : ℤ :=
  max 0 (pyRoundInt ((2/5 : ℚ) * (per_adjusted : ℚ) + (3/5 : ℚ) * letter_accuracy) -
    5 * (word_mistake_count : ℤ))

/-- Concrete assessment for C1: expected `"elephant"`, transcribed
`"elephont"`, three phoneme scores (one substitution at `0.5`, one weak at
`0.7`). -/
def c1_phoneme_scores : List PhonemeScore :=
  [{ phoneme := "EH", score := 1, word := "elephant" },
   { phoneme := "L", score := 1/2, word := "elephant" },
   { phoneme := "F", score := 7/10, word := "elephant" }]

def c1_report : MistakeReport :=
  detect_mistakes (fun _ _ => none)
    (validate_speech_core "elephont" "elephant" (6/10)) c1_phoneme_scores "elephant"

unseal Rat.mul Rat.inv Rat.add Rat.sub in
/-- C1 counterexample: on this assessment the code's blended score is 84
(`int()` truncation of `0.4·93 + 0.6·87.5 = 89.7`, then `-5`), while the
claim's `round`-based formula gives 85. -/
theorem C1_blended_score_round_counterexample :
    c1_report.per_adjusted_score = 93 ∧
    c1_report.letter_accuracy = 175/2 ∧
    c1_report.word_errors = 1 ∧
    c1_report.adjusted_score = 84 ∧
    blended_score_spec c1_report.per_adjusted_score c1_report.letter_accuracy
      c1_report.word_errors = 85 := by
  decide

/-- C1 amended: the Mistake Synthesizer's final blended score equals the
`int()` **truncation** (not `round`) of
`0.4 * per_result.adjusted_score + 0.6 * letter_accuracy`, minus 5 points
per word mistake, floored at 0. -/
theorem C1_blended_score_truncates (o : TipOracle) (asr : ValidationResult)
    (ps : List PhonemeScore) (t : String) :
    (detect_mistakes o asr ps t).adjusted_score =
      max 0 (pyInt ((2/5 : ℚ) * ((detect_mistakes o asr ps t).per_adjusted_score : ℚ) +
        (3/5 : ℚ) * (detect_mistakes o asr ps t).letter_accuracy) -
        5 * ((detect_mistakes o asr ps t).word_errors : ℤ)) := by
  have hA := calculate_per_adjusted_nonneg (ps.map (·.phoneme)) (ps.map (·.phoneme))
    (ps.map (·.score))
  have hL := letter_highlighting_accuracy_nonneg asr
  simp only [detect_mistakes]
  by_cases hw : 0 < (_detect_word_mistakes asr.word_diff).length
  · rw [if_pos hw]
    omega
  · rw [if_neg hw]
    have hw0 : (_detect_word_mistakes asr.word_diff).length = 0 := by omega
    have hbase : 0 ≤ pyInt ((2/5 : ℚ) *
        ((calculate_per (ps.map (·.phoneme)) (ps.map (·.phoneme))
          (ps.map (·.score))).adjusted_score : ℚ) +
        (3/5 : ℚ) * (_generate_letter_highlighting asr).letter_accuracy) := by
      apply pyInt_nonneg
      have h1 : (0 : ℚ) ≤ ((calculate_per (ps.map (·.phoneme)) (ps.map (·.phoneme))
          (ps.map (·.score))).adjusted_score : ℚ) := by exact_mod_cast hA
      positivity
    rw [hw0]
    omega

unseal Rat.mul Rat.inv Rat.add Rat.sub in
/-- C2 counterexample: for transcribed `"she sell seashells"` against
expected `"she sells seashells"` the Levenshtein similarity is
`18/19 ≥ 0.9`, so the gate's status is `"match"`, not `"partial"` as the
claim states. -/
theorem C2_validation_gate_counterexample :
    (validate_speech_core "she sell seashells" "she sells seashells" (6/10)).status =
      "match" ∧ ("match" : String) ≠ "partial" := by
  constructor
  · have hne : ¬ (("she sell seashells" : String) = "") := by decide
    simp only [validate_speech_core, if_neg hne]
    have hlev : (9/10 : ℚ) ≤ edit_distance_similarity
        (pyStrip (pyLower "she sell seashells"))
        (pyStrip (pyLower "she sells seashells")) := by decide
    rw [if_pos (le_trans hlev (le_max_right _ _))]
  · decide

unseal Rat.mul Rat.inv Rat.add Rat.sub in
/-- C2 amended: the gate's word diff marks `"sells"` as wrong with issue
`missing_ending_s`, and because the whole-string similarity is `≥ 0.9`
(the Levenshtein similarity alone is `18/19`) the gate returns status
`match` with `can_proceed = true`. -/
theorem C2_validation_gate_scenario :
    edit_distance_similarity "she sell seashells" "she sells seashells" = 18/19 ∧
    (validate_speech_core "she sell seashells" "she sells seashells" (6/10)).word_diff =
      [{ word := "she", type := "correct", position := 0 },
       { word := "sells", type := "wrong", position := 1, user_said := some "sell",
         suggestion := some "sells", issue := some "missing_ending_s" },
       { word := "seashells", type := "correct", position := 2 }] ∧
    (validate_speech_core "she sell seashells" "she sells seashells" (6/10)).status =
      "match" ∧
    (validate_speech_core "she sell seashells" "she sells seashells" (6/10)).can_proceed =
      true := by
  have hne : ¬ (("she sell seashells" : String) = "") := by decide
  have hlev : (9/10 : ℚ) ≤ edit_distance_similarity
      (pyStrip (pyLower "she sell seashells"))
      (pyStrip (pyLower "she sells seashells")) := by decide
  refine ⟨by decide, ?_, ?_, ?_⟩
  · simp only [validate_speech_core, if_neg hne]
    decide
  · simp only [validate_speech_core, if_neg hne]
    rw [if_pos (le_trans hlev (le_max_right _ _))]
  · simp only [validate_speech_core, if_neg hne]
    rw [if_pos (le_trans hlev (le_max_right _ _))]
    decide

theorem getD_replicate_of_lt {α : Type} (n i : ℕ) (x d : α) (h : i < n) :
    (List.replicate n x).getD i d = x := by
  rw [List.getD_eq_get _ _ (by simpa using h)]
  simp [List.get_replicate]

/-- Invariant of the best-of-several fold: the accumulator is either the
untouched `("-", -1)` seed or an estimated word with its nonnegative
index. -/
theorem bestPositionStep_foldl_inv (est real : List String) (wi : ℕ) :
    ∀ (ps : List ℕ) (b : String × ℤ × Option ℕ),
      (b.1 = "-" ∧ b.2.1 = -1) ∨ (b.1 ∈ est ∧ 0 ≤ b.2.1) →
      ((ps.foldl (bestPositionStep est real wi) b).1 = "-" ∧
        (ps.foldl (bestPositionStep est real wi) b).2.1 = -1) ∨
      ((ps.foldl (bestPositionStep est real wi) b).1 ∈ est ∧
        0 ≤ (ps.foldl (bestPositionStep est real wi) b).2.1) := by
  intro ps
  induction ps with
  | nil => intro b hb; exact hb
  | cons p ps ih =>
    intro b hb
    apply ih
    unfold bestPositionStep
    by_cases hp : p < est.length
    · rw [if_pos hp]
      have hmem : est.getD p "" ∈ est := by
        rw [List.getD_eq_get _ _ hp]
        exact List.get_mem est _ _
      rcases hb2 : b.2.2 with _ | bd
      · exact Or.inr ⟨hmem, by positivity⟩
      · dsimp only
        split
        · exact Or.inr ⟨hmem, by positivity⟩
        · exact hb
    · rw [if_neg hp]
      exact hb

theorem pairFromPositions_single (est real : List String) (wi p : ℕ) :
    pairFromPositions est real wi [p] =
      if p < est.length then (est.getD p "", (p : ℤ)) else ("-", (-1 : ℤ)) := rfl

/-- The pair built from a position set is either the `('-', -1)` "no match"
pair or an estimated word with its nonnegative index. -/
theorem pairFromPositions_inv (est real : List String) (wi : ℕ) (positions : List ℕ) :
    ((pairFromPositions est real wi positions).1 = "-" ∧
      (pairFromPositions est real wi positions).2 = -1) ∨
    ((pairFromPositions est real wi positions).1 ∈ est ∧
      0 ≤ (pairFromPositions est real wi positions).2) := by
  rcases positions with _ | ⟨p, _ | ⟨q, rest⟩⟩
  · exact Or.inl ⟨rfl, rfl⟩
  · rw [pairFromPositions_single]
    by_cases hp : p < est.length
    · rw [if_pos hp]
      refine Or.inr ⟨?_, by positivity⟩
      rw [List.getD_eq_get _ _ hp]
      exact List.get_mem est _ _
    · rw [if_neg hp]
      exact Or.inl ⟨rfl, rfl⟩
  · exact bestPositionStep_foldl_inv est real wi (p :: q :: rest) _ (Or.inl ⟨rfl, rfl⟩)

/-- Each `mappedPair` is either the `('-', -1)` "no match" pair or an
estimated word with its nonnegative index. -/
theorem mappedPair_inv (mi : List ℤ) (est real : List String) (wi : ℕ) :
    ((mappedPair mi est real wi).1 = "-" ∧ (mappedPair mi est real wi).2 = -1) ∨
    ((mappedPair mi est real wi).1 ∈ est ∧ 0 ≤ (mappedPair mi est real wi).2) :=
  pairFromPositions_inv est real wi _

theorem get_mapped_words_core_getD (mi : List ℤ) (est real : List String) (i : ℕ)
    (h : i < real.length) :
    (get_mapped_words_core mi est real).1.getD i "-" = (mappedPair mi est real i).1 ∧
    (get_mapped_words_core mi est real).2.getD i (-1) = (mappedPair mi est real i).2 := by
  unfold get_mapped_words_core
  constructor <;>
  · rw [List.getD_eq_get _ _ (by simpa using h), List.get_map, List.get_map]
    congr 1
    simp [List.get_range]

/-- Shape of `get_mapped_words`' outputs: both lists have one entry per
real word, and each entry is either the `('-', -1)` "no match" pair or an
estimated word with its nonnegative index. -/
theorem get_mapped_words_spec (est real : List String) :
    (get_mapped_words est real).1.length = real.length ∧
    (get_mapped_words est real).2.length = real.length ∧
    ∀ i, i < real.length →
      ((get_mapped_words est real).1.getD i "-" = "-" ∧
        (get_mapped_words est real).2.getD i (-1) = -1) ∨
      ((get_mapped_words est real).1.getD i "-" ∈ est ∧
        0 ≤ (get_mapped_words est real).2.getD i (-1)) := by
  unfold get_mapped_words
  by_cases hreal : real = []
  · rw [if_pos hreal]
    subst hreal
    exact ⟨rfl, rfl, fun i h => absurd h (by simp)⟩
  · rw [if_neg hreal]
    by_cases hest : est = []
    · rw [if_pos hest]
      refine ⟨by simp, by simp, fun i h => Or.inl ?_⟩
      rw [getD_replicate_of_lt _ _ _ _ h, getD_replicate_of_lt _ _ _ _ h]
      exact ⟨rfl, rfl⟩
    · rw [if_neg hest]
      refine ⟨by simp [get_mapped_words_core], by simp [get_mapped_words_core],
        fun i h => ?_⟩
      obtain ⟨h1, h2⟩ := get_mapped_words_core_getD (_fallback_alignment est real) est real i h
      rw [h1, h2]
      exact mappedPair_inv _ est real i

theorem compare_word_sequences_eq (expected_words actual_words : List String) :
    compare_word_sequences expected_words actual_words =
      expected_words.enum.map (fun (p : ℕ × String) =>
        refComparisonEntry (get_mapped_words actual_words expected_words) p.1 p.2) ++
      actual_words.enum.filterMap (fun (p : ℕ × String) =>
        extraComparisonEntry ((get_mapped_words actual_words expected_words).2.filter
          (fun idx => 0 ≤ idx)) p.1 p.2) := rfl

/-- The fields of a reference entry that do not depend on which status
branch was taken. -/
theorem refComparisonEntry_basic (mwmi : List String × List ℤ) (i : ℕ) (w : String) :
    (refComparisonEntry mwmi i w).position = (i : ℤ) ∧
    (refComparisonEntry mwmi i w).expected = w ∧
    (refComparisonEntry mwmi i w).actual = mwmi.1.getD i "-" ∧
    (refComparisonEntry mwmi i w).is_extra = false := by
  simp only [refComparisonEntry]
  split
  · exact ⟨rfl, rfl, rfl, rfl⟩
  · split
    · exact ⟨rfl, rfl, rfl, rfl⟩
    · exact ⟨rfl, rfl, rfl, rfl⟩

/-- The status of a reference entry as a function of the mapped word. -/
theorem refComparisonEntry_status (mwmi : List String × List ℤ) (i : ℕ) (w : String) :
    (refComparisonEntry mwmi i w).status =
      (if mwmi.1.getD i "-" = "-" then "missing"
       else if pyStrip (pyLower w) = pyStrip (pyLower (mwmi.1.getD i "-")) then "correct"
       else if 1/2 < entry_similarity w (mwmi.1.getD i "-") then "partial"
       else "wrong") := by
  simp only [refComparisonEntry]
  split
  · rfl
  · split
    · rfl
    · rfl

/-- **C7** (amended: the transcribed words must not contain the reserved
placeholder `'-'`, which `get_mapped_words` also uses to mark "no
match"): `compare_word_sequences` returns exactly one entry per reference
word — the entry at position `i` carries that reference word, is not
`extra`, its mapped word (when any) is a transcribed word, and its status
is `missing` exactly when no transcribed word maps to it, `correct` on
exact normalized match, `partial` when similarity exceeds `0.5`, and
`wrong` otherwise — followed only by `extra` entries. -/
theorem C7_comparison_invariant (expected_words actual_words : List String)
    (hdash : "-" ∉ actual_words) :
    expected_words.length ≤ (compare_word_sequences expected_words actual_words).length ∧
    (∀ i, i < expected_words.length →
      ∃ e, (compare_word_sequences expected_words actual_words)[i]? = some e ∧
        e.is_extra = false ∧ e.position = (i : ℤ) ∧
        e.expected = expected_words.getD i "" ∧
        (∀ w, mapped_word_opt actual_words expected_words i = some w → w ∈ actual_words) ∧
        e.status = word_status_spec (expected_words.getD i "")
          (mapped_word_opt actual_words expected_words i)) ∧
    (∀ e ∈ (compare_word_sequences expected_words actual_words).drop expected_words.length,
      e.status = "extra" ∧ e.is_extra = true) := by
  have key := fun i (h : i < expected_words.length) =>
    (get_mapped_words_spec actual_words expected_words).2.2 i h
  have hmaplen : (expected_words.enum.map (fun (p : ℕ × String) =>
      refComparisonEntry (get_mapped_words actual_words expected_words) p.1 p.2)).length =
      expected_words.length := by simp
  refine ⟨?_, ?_, ?_⟩
  · rw [compare_word_sequences_eq, List.length_append, hmaplen]
    exact Nat.le_add_right _ _
  · intro i hi
    have hw : expected_words.getD i "" = expected_words[i] :=
      List.getD_eq_getElem _ _ hi
    obtain ⟨hpos, hexp, hact, hextra⟩ := refComparisonEntry_basic
      (get_mapped_words actual_words expected_words) i (expected_words.getD i "")
    refine ⟨refComparisonEntry (get_mapped_words actual_words expected_words) i
      (expected_words.getD i ""), ?_, hextra, hpos, hexp, ?_, ?_⟩
    · rw [compare_word_sequences_eq, List.getElem?_append_left (by rwa [hmaplen]),
        List.getElem?_map, List.getElem?_enum, List.getElem?_eq_getElem hi, hw]
      rfl
    · intro w hw'
      unfold mapped_word_opt at hw'
      split at hw'
      · exact absurd hw' (by simp)
      · rcases key i hi with ⟨hw0, hidx0⟩ | ⟨hmem, hpos0⟩
        · next hidx => exact absurd hidx0 hidx
        · exact (Option.some.inj hw') ▸ hmem
    · rw [refComparisonEntry_status]
      unfold mapped_word_opt
      rcases key i hi with ⟨hw0, hidx0⟩ | ⟨hmem, hpos0⟩
      · rw [if_pos hw0, if_pos hidx0]
        rfl
      · have hne : (get_mapped_words actual_words expected_words).1.getD i "-" ≠ "-" :=
          fun hc => hdash (hc ▸ hmem)
        have hidxne : ¬((get_mapped_words actual_words expected_words).2.getD i (-1) = -1) := by
          intro hc
          rw [hc] at hpos0
          exact absurd hpos0 (by norm_num)
        rw [if_neg hne, if_neg hidxne]
        rfl
  · rw [compare_word_sequences_eq]
    intro e he
    rw [← hmaplen, List.drop_left] at he
    obtain ⟨p, _, hp⟩ := List.mem_filterMap.mp he
    unfold extraComparisonEntry at hp
    split at hp
    · exact absurd hp (by simp)
    · cases Option.some.inj hp
      exact ⟨rfl, rfl⟩

theorem C7_comparison_invariant_witness :
    (2 : ℕ) ≤ (compare_word_sequences ["she", "sells"] ["she", "sell"]).length :=
  (C7_comparison_invariant ["she", "sells"] ["she", "sell"] (by decide)).1

unseal Rat.mul Rat.inv Rat.add Rat.sub in
/-- **C7** counterexample to the unamended claim: with the transcribed
word `'-'`, the alignment maps transcribed word `0` onto reference word
`0` (mapped index `0`, an exact match, so the status the claim requires
is `correct`), yet the single reference entry's status is `missing`. -/
theorem C7_comparison_invariant_counterexample :
    (compare_word_sequences ["-"] ["-"]).map (fun e => e.status) = ["missing"] ∧
    (get_mapped_words ["-"] ["-"]).2 = [0] ∧
    mapped_word_opt ["-"] ["-"] 0 = some "-" ∧
    word_status_spec "-" (mapped_word_opt ["-"] ["-"] 0) = "correct" := by decide

/-- The oracle-independent part of a mistake: every field except the
`suggestion` the AI-tip pass may overwrite. -/
def mistakeCore (m : Mistake) : Mistake := { m with suggestion := "" }

/-- The AI-tip pass only touches suggestions: it preserves every
mistake's core. -/
theorem applyTipsAux_map_core (tips : List String) (ms : List Mistake) :
    (applyTipsAux tips ms).map mistakeCore = ms.map mistakeCore := by
  induction ms generalizing tips with
  | nil => rfl
  | cons m ms ih =>
    unfold applyTipsAux
    by_cases hm : m.type = "weak_phoneme"
    · rw [if_pos hm]
      cases tips with
      | nil => rfl
      | cons t trest =>
        simp only [List.map_cons, ih trest]
        rfl
    · rw [if_neg hm]
      simp only [List.map_cons, ih tips]

/-- The mutated mistake list `_generate_feedback` returns has the same
cores as its input, whatever the tip oracle answered. -/
theorem _generate_feedback_snd_map_core (oracle : TipOracle) (ms : List Mistake)
    (expected_text : String) :
    ((_generate_feedback oracle ms expected_text).2).map mistakeCore = ms.map mistakeCore := by
  unfold _generate_feedback
  by_cases h : ms = []
  · rw [if_pos h]
  · rw [if_neg h]
    exact applyTipsAux_map_core _ ms

/-- `find?` for a predicate that factors through `f` returns, on two lists
with equal images under `f`, results with equal images under `f`. -/
theorem find_core_congr {α β : Type} (f : α → β) (q : α → Bool)
    (hq : ∀ a b, f a = f b → q a = q b) :
    ∀ (l1 l2 : List α), l1.map f = l2.map f →
      (l1.find? q).map f = (l2.find? q).map f := by
  intro l1
  induction l1 with
  | nil =>
    intro l2 h
    cases l2 with
    | nil => rfl
    | cons b l2 => exact absurd h (by simp)
  | cons a l ih =>
    intro l2 h
    cases l2 with
    | nil => exact absurd h (by simp)
    | cons b l2 =>
      simp only [List.map_cons, List.cons.injEq] at h
      obtain ⟨hab, hrest⟩ := h
      simp only [List.find?]
      rw [hq a b hab]
      cases hpb : q b
      · exact ih l2 hrest
      · exact congrArg some hab

theorem mistakeCore_type {a b : Mistake} (h : mistakeCore a = mistakeCore b) :
    a.type = b.type := by
  have hc := congrArg Mistake.type h
  exact hc

theorem mistakeCore_phoneme {a b : Mistake} (h : mistakeCore a = mistakeCore b) :
    a.phoneme = b.phoneme := by
  have hc := congrArg Mistake.phoneme h
  exact hc

theorem mistakeCore_word {a b : Mistake} (h : mistakeCore a = mistakeCore b) :
    a.word = b.word := by
  have hc := congrArg Mistake.word h
  exact hc

/-- `subErrorsStep` reads the found mistake only through its core. -/
theorem subErrorsStep_congr (errors2 : List String) (substitutions : ℕ)
    {f1 f2 : Option Mistake} (h : f1.map mistakeCore = f2.map mistakeCore) :
    subErrorsStep errors2 substitutions f1 = subErrorsStep errors2 substitutions f2 := by
  rcases f1 with _ | m1 <;> rcases f2 with _ | m2
  · rfl
  · exact absurd h (by simp)
  · exact absurd h (by simp)
  · have hc : mistakeCore m1 = mistakeCore m2 := Option.some.inj h
    simp only [subErrorsStep]
    rw [mistakeCore_phoneme hc, mistakeCore_word hc]

/-- `weakErrorsStep` reads the found mistake only through its core. -/
theorem weakErrorsStep_congr (errors3 : List String) (weak_count : ℕ)
    {f1 f2 : Option Mistake} (h : f1.map mistakeCore = f2.map mistakeCore) :
    weakErrorsStep errors3 weak_count f1 = weakErrorsStep errors3 weak_count f2 := by
  rcases f1 with _ | m1 <;> rcases f2 with _ | m2
  · rfl
  · exact absurd h (by simp)
  · exact absurd h (by simp)
  · have hc : mistakeCore m1 = mistakeCore m2 := Option.some.inj h
    simp only [weakErrorsStep]
    rw [mistakeCore_phoneme hc]

/-- `_generate_specific_errors` reads phoneme mistakes only through their
cores, so core-equal lists give the same error strings. -/
theorem _generate_specific_errors_congr (wm : List Mistake) (ec : ErrorCounts)
    (ms1 ms2 : List Mistake) (h : ms1.map mistakeCore = ms2.map mistakeCore) :
    _generate_specific_errors wm ms1 ec = _generate_specific_errors wm ms2 ec := by
  have hqt : ∀ (s : String) (a b : Mistake), mistakeCore a = mistakeCore b →
      (a.type == s) = (b.type == s) := fun s a b hab => by rw [mistakeCore_type hab]
  have hsub := find_core_congr mistakeCore (fun m => m.type == "substitution")
    (hqt "substitution") ms1 ms2 h
  have hweak := find_core_congr mistakeCore (fun m => m.type == "weak_phoneme")
    (hqt "weak_phoneme") ms1 ms2 h
  simp only [_generate_specific_errors]
  rw [subErrorsStep_congr _ _ hsub, weakErrorsStep_congr _ _ hweak]

/-- **C8**: `detect_mistakes` is deterministic in everything the platform
controls: the blended `adjusted_score` and the `specific_errors` list
(content and order) do not depend on the tip oracle, the one external,
possibly randomized input — so two runs on identical inputs agree on
both, whatever the LLM answers. -/
theorem C8_detect_mistakes_deterministic (o1 o2 : TipOracle)
    (asr_result : ValidationResult) (phoneme_scores : List PhonemeScore)
    (expected_text : String) :
    (detect_mistakes o1 asr_result phoneme_scores expected_text).adjusted_score =
      (detect_mistakes o2 asr_result phoneme_scores expected_text).adjusted_score ∧
    (detect_mistakes o1 asr_result phoneme_scores expected_text).specific_errors =
      (detect_mistakes o2 asr_result phoneme_scores expected_text).specific_errors := by
  constructor
  · rfl
  · apply _generate_specific_errors_congr
    rw [List.map_drop, List.map_drop, _generate_feedback_snd_map_core,
      _generate_feedback_snd_map_core]

end Pronunex

